import Mathlib

/-!
Shallow embedding of the `echo_chamber` council-of-agents workflow
(`src/agents.py`, `src/workflow.py`, `src/config_manager.py`) together with
proofs settling the specification claims.

Conventions of the embedding:
* Python strings are Lean `String`s; `str.strip()` is `pyStrip` (character-level
  whitespace stripping at both ends), `text.rsplit("Summary:", 1)` is `lastSplit`
  applied to the character list (split at the last occurrence of the marker).
* The external language model (`ChatOpenAI.ainvoke`) is an oracle parameter
  `Oracle ε`: a function from the agent handle and the message list to
  `Except ε LLMReply`.  A `.error` result models a raised exception, which the
  code propagates unchanged (`await` rethrows).
* `asyncio.gather` over the reviewer tasks is `gatherExcept` (first raised
  exception aborts the round, otherwise all results in task order); the
  slot-filling join that makes the task order independent of completion order
  is modelled by `gatherJoin`/`fillSlots`.
* The optional `ui_callback` is modelled by a `hasCallback` flag on the
  workflow; the awaited callback invocations become an `Event` trace returned
  alongside the state, so a run yields `Except ε (state × events × fan-outs)`.
-/

/-- Whitespace test used by `pyStrip`, the model of Python `str.strip()`. -/
def isPySpace (c : Char) : Bool := c.isWhitespace

/-- Model of Python `str.strip()`: drop whitespace from both ends. -/
def pyStrip (s : String) : String :=
  ⟨(((s.data.dropWhile isPySpace).reverse.dropWhile isPySpace).reverse)⟩

/-- A string with no leading or trailing whitespace (stripping it is a no-op). -/
def isStripped (s : String) : Prop := pyStrip s = s

/-- Split a character list at the LAST occurrence of `sep`, returning the parts
before and after it, or `none` when `sep` does not occur.  This is the model of
Python `text.rsplit(sep, 1)` for a text known to contain `sep`, and its
`isSome`-ness is the model of Python `sep in text`. -/
def lastSplit (sep : List Char) : List Char → Option (List Char × List Char)
  | [] => if sep.isEmpty then some ([], []) else none
  | c :: rest =>
    match lastSplit sep rest with
    | some (a, b) => some (c :: a, b)
    | none =>
      if sep.isPrefixOf (c :: rest) then some ([], (c :: rest).drop sep.length)
      else none

/-- The literal marker `"Summary:"` from `agents.split_summary`. -/
def markerChars : List Char := "Summary:".data

/-- `agents.split_summary`: return main text and summary from a response.
`if "Summary:" in text: main, summary = text.rsplit("Summary:", 1); return
main.strip(), summary.strip()` else `return text.strip(), ""`. -/
def split_summary (text : String) : String × String :=
  match lastSplit markerChars text.data with
  | some (main, summary) => (pyStrip ⟨main⟩, pyStrip ⟨summary⟩)
  | none => (pyStrip text, "")

/-- Token usage record, model of the three-field dict that
`generate_response` builds from `response.usage_metadata`. -/
structure TokenUsage where
  input_tokens : Nat
  output_tokens : Nat
  total_tokens : Nat
  deriving DecidableEq, Repr

/-- Values stored in the open `metadata` mapping of an agent result. -/
inductive MetaValue where
  | str (s : String)
  | usage (u : TokenUsage)
  | bool (b : Bool)
  | nat (n : Nat)
  deriving DecidableEq, Repr

/-- Insertion into a Python dict: overwrite the value when the key is present,
otherwise append the binding at the end (insertion order is preserved). -/
def dictInsert (m : List (String × MetaValue)) (k : String) (v : MetaValue) :
    List (String × MetaValue) :=
  if m.any (fun p => p.1 == k) then
    m.map (fun p => if p.1 == k then (k, v) else p)
  else m ++ [(k, v)]

/-- `agents.AgentResponse`: one model invocation's structured outcome. -/
structure AgentResponse where
  content : String
  agent_id : String
  agent_type : String
  metadata : List (String × MetaValue)
  deriving DecidableEq, Repr

/-- A raw reply from the external model: generated text plus the optional
usage accounting that `ChatOpenAI` may attach. -/
structure LLMReply where
  content : String
  usage_metadata : Option TokenUsage
  deriving DecidableEq, Repr

/-- The fixed configuration of one `ChatOpenAI` handle. -/
structure LLM where
  model : String
  temperature : ℚ
  deriving DecidableEq, Repr

/-- Chat messages passed to the model. -/
inductive Message where
  | system (content : String)
  | human (content : String)
  deriving DecidableEq, Repr

/-- The external model capability: given an agent's handle and composed
messages, asynchronously return a reply or fail. -/
abbrev Oracle (ε : Type) := LLM → List Message → Except ε LLMReply

/-- `BaseAgent.generate_response` after the model call returned `reply`:
split the raw text into content/summary, record the summary under
`"summary"` when non-empty and the usage under `"token_usage"` when present,
and build the fresh `AgentResponse`. -/
def generate_response (agent_id agent_type : String) (reply : LLMReply) :
    AgentResponse :=
  let ts := split_summary reply.content
  let metadata : List (String × MetaValue) :=
    if ts.2 ≠ "" then [("summary", MetaValue.str ts.2)] else []
  let metadata :=
    match reply.usage_metadata with
    | some u => dictInsert metadata "token_usage" (MetaValue.usage u)
    | none => metadata
  { content := ts.1, agent_id := agent_id, agent_type := agent_type,
    metadata := metadata }

/-- System/human messages of `DraftAgent.create_initial_draft`. -/
def DraftAgent.initialMessages (user_query : String) : List Message :=
  [Message.system ("You are a draft agent responsible for creating comprehensive,\n            well-structured responses to user queries. Focus on clarity, accuracy, and completeness.\n            Finish your reply with a single sentence summary prefixed with \x27Summary:\x27."),
   Message.human user_query]

/-- `DraftAgent.create_initial_draft`: compose the initial-draft messages, call
the model once, and wrap the reply (agent id `"draft_agent"`, class name
`"DraftAgent"`).  A model failure is propagated unchanged. -/
def DraftAgent.create_initial_draft (llm : LLM) (oracle : Oracle ε)
    (user_query : String) : Except ε AgentResponse :=
  match oracle llm (DraftAgent.initialMessages user_query) with
  | Except.error e => Except.error e
  | Except.ok reply => Except.ok (generate_response "draft_agent" "DraftAgent" reply)

/-- The numbered feedback block of `DraftAgent.update_draft`:
`"\n\n".join(f"Feedback {i+1}: {fb}" for i, fb in enumerate(feedback))`. -/
def DraftAgent.feedbackText (feedback : List String) : String :=
  String.intercalate "\n\n"
    ((feedback.enum).map (fun p => "Feedback " ++ toString (p.1 + 1) ++ ": " ++ p.2))

/-- System/human messages of `DraftAgent.update_draft`. -/
def DraftAgent.updateMessages (current_draft : String) (feedback : List String) :
    List Message :=
  [Message.system ("You are a draft agent. Your task is to improve your draft\n            based on the feedback provided by the council members. Incorporate valid suggestions\n            while maintaining the overall coherence of your response.\n            Finish with a single sentence summary prefixed with \x27Summary:\x27."),
   Message.human ("Current Draft:\n" ++ current_draft ++ "\n\nCouncil Feedback:\n" ++ DraftAgent.feedbackText feedback ++ "\n\nPlease provide an updated draft that addresses the feedback while maintaining quality and coherence.")]

/-- `DraftAgent.update_draft`: call the model on the revision prompt, wrap the
reply, then set `response.metadata["revision"] = True` before returning. -/
def DraftAgent.update_draft (llm : LLM) (oracle : Oracle ε)
    (current_draft : String) (feedback : List String) : Except ε AgentResponse :=
  match oracle llm (DraftAgent.updateMessages current_draft feedback) with
  | Except.error e => Except.error e
  | Except.ok reply =>
    let response := generate_response "draft_agent" "DraftAgent" reply
    Except.ok { response with
      metadata := dictInsert response.metadata "revision" (MetaValue.bool true) }

/-- One council member as built by `CouncilMember.__init__`: the stable agent
id `f"council_member_{member_id}"`, the ordinal id, the model handle and the
perspective label. -/
structure CouncilMemberData where
  agent_id : String
  member_id : Nat
  llm : LLM
  perspective : String
  deriving DecidableEq, Repr

/-- `CouncilMember.__init__`: a falsy (`None` or empty) perspective defaults to
`f"Critical Reviewer {member_id}"`. -/
def CouncilMember.init (member_id : Nat) (llm : LLM) (perspective : Option String) :
    CouncilMemberData :=
  { agent_id := "council_member_" ++ toString member_id,
    member_id := member_id,
    llm := llm,
    perspective :=
      match perspective with
      | some p => if p = "" then "Critical Reviewer " ++ toString member_id else p
      | none => "Critical Reviewer " ++ toString member_id }

/-- System/human messages of `CouncilMember.provide_feedback`. -/
def CouncilMember.feedbackMessages (perspective user_query current_draft : String)
    (round_number : Nat) : List Message :=
  [Message.system ("You are " ++ perspective ++ ". Your role is to critically evaluate\n            the draft response and provide constructive feedback. Focus on:\n            - Accuracy and factual correctness\n            - Completeness and coverage of the topic\n            - Clarity and organization\n            - Potential improvements or missing elements\n\n            This is round " ++ toString round_number ++ " of the review process.\n            End with a one sentence summary prefixed with \x27Summary:\x27."),
   Message.human ("User Query: " ++ user_query ++ "\n\nCurrent Draft:\n" ++ current_draft ++ "\n\nPlease provide specific, actionable feedback to improve this response.\nFinish with a one sentence summary prefixed with \x27Summary:\x27.")]

/-- `CouncilMember.provide_feedback`: call the model on the critique prompt,
wrap the reply, then set `response.metadata["round"] = round_number`. -/
def CouncilMember.provide_feedback (member : CouncilMemberData) (oracle : Oracle ε)
    (user_query current_draft : String) (round_number : Nat) :
    Except ε AgentResponse :=
  match oracle member.llm
      (CouncilMember.feedbackMessages member.perspective user_query current_draft
        round_number) with
  | Except.error e => Except.error e
  | Except.ok reply =>
    let response := generate_response member.agent_id "CouncilMember" reply
    Except.ok { response with
      metadata := dictInsert response.metadata "round" (MetaValue.nat round_number) }

/-- One `{"agent_id": ..., "feedback": ...}` entry of a feedback round. -/
structure FeedbackEntry where
  agent_id : String
  feedback : String
  deriving DecidableEq, Repr

/-- System/human messages of `EditorAgent.edit_final_response`; note they are
built from the user query and the final draft only. -/
def EditorAgent.editMessages (user_query final_draft : String) : List Message :=
  [Message.system ("You are an expert editor. Your task is to take the final draft\n            and ensure it is polished, coherent, and well-formatted. Make minor adjustments for:\n            - Grammar and style consistency\n            - Logical flow and transitions\n            - Formatting and presentation\n            - Overall coherence\n\n            Do not make major content changes unless absolutely necessary for accuracy.\n            Provide a one sentence summary of your edits prefixed with \x27Summary:\x27."),
   Message.human ("User Query: " ++ user_query ++ "\n\nFinal Draft:\n" ++ final_draft ++ "\n\nPlease provide the polished, final version of this response.")]

/-- `EditorAgent.edit_final_response`: the `debate_history` argument is
accepted (the workflow passes the full feedback history) but does not flow
into the messages; the reply is wrapped and `metadata["final"] = True` set. -/
def EditorAgent.edit_final_response (llm : LLM) (oracle : Oracle ε)
    (user_query final_draft : String)
    (debate_history : List (List FeedbackEntry)) : Except ε AgentResponse :=
  match oracle llm (EditorAgent.editMessages user_query final_draft) with
  | Except.error e => Except.error e
  | Except.ok reply =>
    let response := generate_response "editor_agent" "EditorAgent" reply
    Except.ok { response with
      metadata := dictInsert response.metadata "final" (MetaValue.bool true) }

/-- `workflow.CouncilState` (minus the `ui_callback` slot, which the embedding
models as the `hasCallback` flag of the workflow and an explicit event trace). -/
structure CouncilState where
  user_query : String
  current_draft : String
  drafts : List String
  feedback_history : List (List FeedbackEntry)
  current_round : Nat
  max_rounds : Nat
  final_response : String
  deriving DecidableEq, Repr

/-- One awaited `ui_callback(event_type, payload)` notification. -/
inductive Event where
  | status (message : String)
  | draft_created (result : AgentResponse)
  | feedback_round (round : Nat) (feedback : List FeedbackEntry)
  | draft_updated (result : AgentResponse)
  | final_response (result : AgentResponse)
  deriving DecidableEq, Repr

/-- The event type of a notification, without its payload. -/
inductive ETag where
  | status
  | draft_created
  | feedback_round (round : Nat)
  | draft_updated
  | final_response
  deriving DecidableEq, Repr

/-- Project a notification to its event type (keeping the round number). -/
def Event.tag : Event → ETag
  | Event.status _ => ETag.status
  | Event.draft_created _ => ETag.draft_created
  | Event.feedback_round r _ => ETag.feedback_round r
  | Event.draft_updated _ => ETag.draft_updated
  | Event.final_response _ => ETag.final_response

/-- Does a notification report a draft revision? -/
def Event.isDraftUpdated : Event → Bool
  | Event.draft_updated _ => true
  | _ => false

/-- One reviewer fan-out: the batch of `(handle, messages)` calls dispatched
concurrently by `asyncio.gather` in `council_debate`. -/
abbrev Fanout := List (LLM × List Message)

/-- Result of one workflow stage: either the propagated failure, or the new
state together with the notifications emitted and the fan-outs performed. -/
abbrev NodeResult (ε : Type) := Except ε (CouncilState × List Event × List Fanout)

/-- `asyncio.gather(*tasks)`: wait for every task; if some task raised, the
whole gather raises that exception (the model surfaces the first failure in
task order, which coincides with `asyncio` whenever at most one task fails);
otherwise return all results in task order. -/
def gatherExcept : List (Except ε α) → Except ε (List α)
  | [] => Except.ok []
  | Except.error e :: _ => Except.error e
  | Except.ok a :: rest =>
    match gatherExcept rest with
    | Except.error e => Except.error e
    | Except.ok as => Except.ok (a :: as)

/-- The slot-filling join of `asyncio.gather`: processing completions in the
order given by `sched`, the completion of task `i` deposits that task's result
into slot `i` of the result array. -/
def fillSlots (results : List α) : List Nat → List (Option α) → List (Option α)
  | [], slots => slots
  | i :: rest, slots => fillSlots results rest (slots.set i (results.get? i))

/-- Gather's result array after all tasks completed in the order `sched`. -/
def gatherJoin (results : List α) (sched : List Nat) : List (Option α) :=
  fillSlots results sched (List.replicate results.length none)

/-- The engine built by `CouncilWorkflow.__init__` from a configuration:
the three role agents plus the round bound, and whether a `ui_callback`
was supplied. -/
structure CouncilWorkflow where
  draft_agent : LLM
  council_members : List CouncilMemberData
  editor_agent : LLM
  debate_rounds : Nat
  hasCallback : Bool
  deriving DecidableEq, Repr

/-- `workflow.CouncilWorkflow.create_initial_draft` node: status callback,
initial-draft invocation, `draft_created` callback; the update sets
`current_draft`, appends the draft (the `operator.add` reducer on `drafts`)
and resets `current_round` to 0. -/
def CouncilWorkflow.create_initial_draft (wf : CouncilWorkflow) (oracle : Oracle ε)
    (state : CouncilState) : NodeResult ε :=
  let ev0 := if wf.hasCallback then [Event.status "Creating initial draft..."] else []
  match DraftAgent.create_initial_draft wf.draft_agent oracle state.user_query with
  | Except.error e => Except.error e
  | Except.ok response =>
    let ev1 := if wf.hasCallback then [Event.draft_created response] else []
    Except.ok ({ state with
        current_draft := response.content,
        drafts := state.drafts ++ [response.content],
        current_round := 0 },
      ev0 ++ ev1, [])

/-- `workflow.CouncilWorkflow.council_debate` node: bump the round number,
status callback, build one `provide_feedback` task per configured council
member, gather them concurrently, reduce the responses (in configured member
order) to `{agent_id, feedback}` pairs, `feedback_round` callback; the update
appends the round to `feedback_history` and commits the new round counter. -/
def CouncilWorkflow.council_debate (wf : CouncilWorkflow) (oracle : Oracle ε)
    (state : CouncilState) : NodeResult ε :=
  let current_round := state.current_round + 1
  let ev0 := if wf.hasCallback then
    [Event.status ("Council debate round " ++ toString current_round ++ "...")] else []
  let feedback_tasks := wf.council_members.map (fun member =>
    CouncilMember.provide_feedback member oracle state.user_query
      state.current_draft current_round)
  match gatherExcept feedback_tasks with
  | Except.error e => Except.error e
  | Except.ok feedback_responses =>
    let round_feedback := feedback_responses.map (fun response =>
      FeedbackEntry.mk response.agent_id response.content)
    let ev1 := if wf.hasCallback then
      [Event.feedback_round current_round round_feedback] else []
    Except.ok ({ state with
        current_round := current_round,
        feedback_history := state.feedback_history ++ [round_feedback] },
      ev0 ++ ev1,
      [wf.council_members.map (fun member =>
        (member.llm, CouncilMember.feedbackMessages member.perspective
          state.user_query state.current_draft current_round))])

/-- `workflow.CouncilWorkflow.update_draft` node: status callback, revise the
draft from the latest round of feedback texts, `draft_updated` callback; the
update sets `current_draft` and appends the new draft. -/
def CouncilWorkflow.update_draft (wf : CouncilWorkflow) (oracle : Oracle ε)
    (state : CouncilState) : NodeResult ε :=
  let ev0 := if wf.hasCallback then
    [Event.status "Updating draft based on feedback..."] else []
  let latest_feedback := state.feedback_history.getLastD []
  let feedback_texts := latest_feedback.map (fun fb => fb.feedback)
  match DraftAgent.update_draft wf.draft_agent oracle state.current_draft
      feedback_texts with
  | Except.error e => Except.error e
  | Except.ok response =>
    let ev1 := if wf.hasCallback then [Event.draft_updated response] else []
    Except.ok ({ state with
        current_draft := response.content,
        drafts := state.drafts ++ [response.content] },
      ev0 ++ ev1, [])

/-- `workflow.CouncilWorkflow.final_edit` node: status callback, editor
invocation on the query, the latest draft and the full feedback history,
`final_response` callback; the update sets `final_response`. -/
def CouncilWorkflow.final_edit (wf : CouncilWorkflow) (oracle : Oracle ε)
    (state : CouncilState) : NodeResult ε :=
  let ev0 := if wf.hasCallback then [Event.status "Performing final edit..."] else []
  match EditorAgent.edit_final_response wf.editor_agent oracle state.user_query
      state.current_draft state.feedback_history with
  | Except.error e => Except.error e
  | Except.ok response =>
    let ev1 := if wf.hasCallback then [Event.final_response response] else []
    Except.ok ({ state with final_response := response.content }, ev0 ++ ev1, [])

/-- `workflow.CouncilWorkflow.should_continue_debate`: `"end"` once
`current_round >= max_rounds`, else `"continue"`. -/
def should_continue_debate (state : CouncilState) : String :=
  if state.current_round ≥ state.max_rounds then "end" else "continue"

/-- The compiled graph from `council_debate` onward: run a debate round, then
either enter `final_edit` (conditional edge `"end"`) or revise the draft and
loop back into the debate (edge `"continue"`, then the unconditional
`update_draft → council_debate` edge). -/
def CouncilWorkflow.debateLoop (wf : CouncilWorkflow) (oracle : Oracle ε)
    (state : CouncilState) : NodeResult ε :=
  match hd : wf.council_debate oracle state with
  | Except.error e => Except.error e
  | Except.ok (st1, ev1, bt1) =>
    if hc : should_continue_debate st1 = "end" then
      match wf.final_edit oracle st1 with
      | Except.error e => Except.error e
      | Except.ok (st2, ev2, bt2) => Except.ok (st2, ev1 ++ ev2, bt1 ++ bt2)
    else
      match hu : wf.update_draft oracle st1 with
      | Except.error e => Except.error e
      | Except.ok (st2, ev2, bt2) =>
        match wf.debateLoop oracle st2 with
        | Except.error e => Except.error e
        | Except.ok (st3, ev3, bt3) =>
          Except.ok (st3, ev1 ++ ev2 ++ ev3, bt1 ++ bt2 ++ bt3)
termination_by state.max_rounds - state.current_round
decreasing_by
  have h1 : st1.current_round = state.current_round + 1 ∧
      st1.max_rounds = state.max_rounds := by
    simp only [CouncilWorkflow.council_debate] at hd
    repeat split at hd
    all_goals first
      | exact Except.noConfusion hd
      | (injection hd with hd
         obtain ⟨h, -⟩ := Prod.mk.injEq .. ▸ hd
         exact ⟨by rw [← h], by rw [← h]⟩)
  have h2 : st2.current_round = st1.current_round ∧
      st2.max_rounds = st1.max_rounds := by
    simp only [CouncilWorkflow.update_draft] at hu
    repeat split at hu
    all_goals first
      | exact Except.noConfusion hu
      | (injection hu with hu
         obtain ⟨h, -⟩ := Prod.mk.injEq .. ▸ hu
         exact ⟨by rw [← h], by rw [← h]⟩)
  have h3 : st1.current_round < st1.max_rounds := by
    unfold should_continue_debate at hc
    split at hc
    · exact absurd rfl hc
    · omega
  obtain ⟨h1a, h1b⟩ := h1
  obtain ⟨h2a, h2b⟩ := h2
  omega

/-- The fresh initial state built by `CouncilWorkflow.run`. -/
def CouncilWorkflow.initialState (wf : CouncilWorkflow) (user_query : String) :
    CouncilState :=
  { user_query := user_query, current_draft := "", drafts := [],
    feedback_history := [], current_round := 0, max_rounds := wf.debate_rounds,
    final_response := "" }

/-- One full run of the compiled graph: `START → create_draft → council_debate
→ ... → final_edit → END`, returning the final state with the notification
trace and the reviewer fan-outs. -/
def CouncilWorkflow.runState (wf : CouncilWorkflow) (oracle : Oracle ε)
    (user_query : String) : NodeResult ε :=
  match wf.create_initial_draft oracle (wf.initialState user_query) with
  | Except.error e => Except.error e
  | Except.ok (st1, ev1, bt1) =>
    match wf.debateLoop oracle st1 with
    | Except.error e => Except.error e
    | Except.ok (st2, ev2, bt2) => Except.ok (st2, ev1 ++ ev2, bt1 ++ bt2)

/-- `workflow.CouncilWorkflow.run`: run the graph on a fresh state and return
`final_state["final_response"]`. -/
def CouncilWorkflow.run (wf : CouncilWorkflow) (oracle : Oracle ε)
    (user_query : String) : Except ε String :=
  match wf.runState oracle user_query with
  | Except.error e => Except.error e
  | Except.ok (st, _, _) => Except.ok st.final_response

/-- `config_manager.AgentConfig`: model name and temperature of one agent. -/
structure AgentConfig where
  model : String
  temperature : ℚ
  deriving DecidableEq, Repr

/-- `config_manager.CouncilConfig` (the `debate_rounds >= 1` pydantic bound is
carried as a hypothesis where a claim needs it). -/
structure CouncilConfig where
  openai_api_key : String
  draft_agent : AgentConfig
  council_members : List AgentConfig
  editor_agent : AgentConfig
  debate_rounds : Nat
  deriving DecidableEq, Repr

/-- `workflow.CouncilWorkflow.__init__`: build the drafter, the enumerated
council members (member `i` gets perspective `f"Council Member {i+1}"`) and
the editor from the configuration. -/
def mkCouncilWorkflow (config : CouncilConfig) (hasCallback : Bool) :
    CouncilWorkflow :=
  { draft_agent := LLM.mk config.draft_agent.model config.draft_agent.temperature,
    council_members := (config.council_members.enum).map (fun p =>
      CouncilMember.init p.1 (LLM.mk p.2.model p.2.temperature)
        (some ("Council Member " ++ toString (p.1 + 1)))),
    editor_agent := LLM.mk config.editor_agent.model config.editor_agent.temperature,
    debate_rounds := config.debate_rounds,
    hasCallback := hasCallback }

/-- Fuel-indexed reformulation of `CouncilWorkflow.debateLoop` by structural
recursion, so that concrete runs compute inside the kernel.  The fuel is only
consumed on the `"continue"` edge; an exhausted fuel returns the state after
the revision without re-entering the debate (a branch that is unreachable
whenever the fuel bounds the remaining rounds, see `debateLoop_eq_fuel`). -/
def CouncilWorkflow.debateLoopFuel (wf : CouncilWorkflow) (oracle : Oracle ε) :
    Nat → CouncilState → NodeResult ε
  | fuel, state =>
    match wf.council_debate oracle state with
    | Except.error e => Except.error e
    | Except.ok (st1, ev1, bt1) =>
      if should_continue_debate st1 = "end" then
        match wf.final_edit oracle st1 with
        | Except.error e => Except.error e
        | Except.ok (st2, ev2, bt2) => Except.ok (st2, ev1 ++ ev2, bt1 ++ bt2)
      else
        match wf.update_draft oracle st1 with
        | Except.error e => Except.error e
        | Except.ok (st2, ev2, bt2) =>
          match fuel with
          | 0 => Except.ok (st2, ev1 ++ ev2, bt1 ++ bt2)
          | fuel' + 1 =>
            match wf.debateLoopFuel oracle fuel' st2 with
            | Except.error e => Except.error e
            | Except.ok (st3, ev3, bt3) =>
              Except.ok (st3, ev1 ++ ev2 ++ ev3, bt1 ++ bt2 ++ bt3)

/-- The event-type trace that one pass of the debate loop emits when entered
with the given committed round counter and round bound (empty when no callback
is supplied): debate status and feedback round, then either the final edit's
status and response, or a revision's status and update followed by the trace
of the re-entered loop. -/
def loopTags (cb : Bool) (cr mr : Nat) : List ETag :=
  (if cb then [ETag.status, ETag.feedback_round (cr + 1)] else []) ++
    (if h : mr ≤ cr + 1 then
      (if cb then [ETag.status, ETag.final_response] else [])
    else
      ((if cb then [ETag.status, ETag.draft_updated] else []) ++
        loopTags cb (cr + 1) mr))
termination_by mr - cr

/-- Concrete engine used by witnesses: two debate rounds, no council member,
callback supplied. -/
def wNone : CouncilWorkflow :=
  { draft_agent := LLM.mk "m" (7 / 10), council_members := [],
    editor_agent := LLM.mk "e" (3 / 10), debate_rounds := 2, hasCallback := true }

/-- Concrete engine used by witnesses: two debate rounds, two council members
with distinct models, callback supplied. -/
def wTwo : CouncilWorkflow :=
  { draft_agent := LLM.mk "m" (7 / 10),
    council_members :=
      [CouncilMemberData.mk "council_member_0" 0 (LLM.mk "r0" (7 / 10)) "Council Member 1",
       CouncilMemberData.mk "council_member_1" 1 (LLM.mk "r1" (7 / 10)) "Council Member 2"],
    editor_agent := LLM.mk "e" (3 / 10), debate_rounds := 2, hasCallback := true }

/-- Concrete engine used by witnesses: three debate rounds, no council member,
callback supplied. -/
def wThree : CouncilWorkflow :=
  { draft_agent := LLM.mk "m" (7 / 10), council_members := [],
    editor_agent := LLM.mk "e" (3 / 10), debate_rounds := 3, hasCallback := true }

/-- Concrete state used by the order-preservation witness. -/
def stC2 : CouncilState :=
  { user_query := "q", current_draft := "d", drafts := ["d"],
    feedback_history := [], current_round := 0, max_rounds := 2,
    final_response := "" }

/-- State after the initial draft in the zero-member two-round run. -/
def stAfterDraft : CouncilState :=
  { user_query := "q", current_draft := "m", drafts := ["m"],
    feedback_history := [], current_round := 0, max_rounds := 2,
    final_response := "" }

/-- State after the first critique round in the zero-member two-round run. -/
def stAfterRound1 : CouncilState :=
  { user_query := "q", current_draft := "m", drafts := ["m"],
    feedback_history := [[]], current_round := 1, max_rounds := 2,
    final_response := "" }

/-- Oracle used by witnesses: every call succeeds and replies with the called
handle's model name (so different agents give distinguishable replies). -/
def okOracle : Oracle String := fun llm _ => Except.ok (LLMReply.mk llm.model none)

/-- Oracle used by the failure witness: reviewer model `"r1"` raises, every
other call succeeds. -/
def failOracle : Oracle String := fun llm _ =>
  if llm.model = "r1" then Except.error "boom"
  else Except.ok (LLMReply.mk llm.model none)

/-- Decidable equality on `Except` results, so that concrete runs can be
checked by `decide`. -/
def Except.decEq [DecidableEq ε] [DecidableEq α] :
    (x y : Except ε α) → Decidable (x = y)
  | Except.error a, Except.error b =>
    if h : a = b then Decidable.isTrue (by rw [h])
    else Decidable.isFalse (fun hh => absurd (Except.error.inj hh) h)
  | Except.error _, Except.ok _ => Decidable.isFalse (fun hh => Except.noConfusion hh)
  | Except.ok _, Except.error _ => Decidable.isFalse (fun hh => Except.noConfusion hh)
  | Except.ok a, Except.ok b =>
    if h : a = b then Decidable.isTrue (by rw [h])
    else Decidable.isFalse (fun hh => absurd (Except.ok.inj hh) h)

instance [DecidableEq ε] [DecidableEq α] : DecidableEq (Except ε α) := Except.decEq

instance : DecidableEq (CouncilState × List Event × List Fanout) :=
  instDecidableEqProd

/-! Helper theorems about the gather model. -/

/-- A successful gather returns one result per task. -/
theorem gatherExcept_ok_length :
    ∀ (l : List (Except ε α)) (rs : List α),
      gatherExcept l = Except.ok rs → rs.length = l.length := by
  intro l
  induction l with
  | nil => intro rs h; cases h; rfl
  | cons x rest ih =>
    intro rs h
    cases x with
    | error e => exact Except.noConfusion h
    | ok a =>
      unfold gatherExcept at h
      cases hg : gatherExcept rest with
      | error e => rw [hg] at h; exact Except.noConfusion h
      | ok as =>
        rw [hg] at h
        cases h
        simp [ih as hg]

/-- A successful gather returns, in slot `i`, the value of task `i`. -/
theorem gatherExcept_ok_get :
    ∀ (l : List (Except ε α)) (rs : List α), gatherExcept l = Except.ok rs →
      ∀ (i : Nat) (hi : i < l.length) (hi' : i < rs.length),
        l.get ⟨i, hi⟩ = Except.ok (rs.get ⟨i, hi'⟩) := by
  intro l
  induction l with
  | nil => intro rs h i hi; exact absurd hi (by simp)
  | cons x rest ih =>
    intro rs h i hi hi'
    cases x with
    | error e => exact Except.noConfusion h
    | ok a =>
      unfold gatherExcept at h
      cases hg : gatherExcept rest with
      | error e => rw [hg] at h; exact Except.noConfusion h
      | ok as =>
        rw [hg] at h
        cases h
        cases i with
        | zero => rfl
        | succ j => exact ih as hg j (by simpa using hi) (by simpa using hi')

/-- When task `k` raised and every earlier task succeeded, the gather raises
exactly task `k`'s exception. -/
theorem gatherExcept_error :
    ∀ (l : List (Except ε α)) (k : Nat) (hk : k < l.length) (e : ε),
      l.get ⟨k, hk⟩ = Except.error e →
      (∀ (j : Nat) (hj : j < l.length), j < k → ∃ a, l.get ⟨j, hj⟩ = Except.ok a) →
      gatherExcept l = Except.error e := by
  intro l
  induction l with
  | nil => intro k hk; exact absurd hk (by simp)
  | cons x rest ih =>
    intro k hk e hke hpre
    cases k with
    | zero =>
      cases x with
      | error e0 => cases hke; rfl
      | ok a => exact Except.noConfusion hke
    | succ k' =>
      obtain ⟨a, ha⟩ := hpre 0 (by simp) (Nat.succ_pos k')
      cases x with
      | error e0 => exact Except.noConfusion ha
      | ok a0 =>
        have hrest : gatherExcept rest = Except.error e := by
          refine ih k' (by simpa using hk) e (by simpa using hke) ?_
          intro j hj hjk
          exact hpre (j + 1) (by simpa using hj) (by omega)
        unfold gatherExcept
        rw [hrest]

/-- Slot writes do not change the number of slots. -/
theorem fillSlots_length (results : List α) :
    ∀ (sched : List Nat) (slots : List (Option α)),
      (fillSlots results sched slots).length = slots.length := by
  intro sched
  induction sched with
  | nil => intro slots; rfl
  | cons j rest ih => intro slots; simpa [fillSlots] using ih (slots.set j (results.get? j))

/-- A slot already holding its task's value keeps it through any further
completions (a later write to the same slot rewrites the same value). -/
theorem fillSlots_preserves (results : List α) :
    ∀ (sched : List Nat) (slots : List (Option α)) (i : Nat),
      slots.get? i = some (results.get? i) →
      (fillSlots results sched slots).get? i = some (results.get? i) := by
  intro sched
  induction sched with
  | nil => intro slots i h; exact h
  | cons j rest ih =>
    intro slots i h
    have hi : i < slots.length := by
      by_contra hge
      rw [List.get?_eq_none.mpr (by omega)] at h
      exact Option.noConfusion h
    by_cases hji : j = i
    · subst hji
      refine ih (slots.set j (results.get? j)) j ?_
      rw [List.get?_set_eq_of_lt _ (by simpa using hi)]
    · refine ih (slots.set j (results.get? j)) i ?_
      rw [List.get?_set_ne _ _ hji]
      exact h

/-- Once task `i` has completed, slot `i` holds task `i`'s value, regardless
of the order in which the remaining completions are processed. -/
theorem fillSlots_mem (results : List α) :
    ∀ (sched : List Nat) (slots : List (Option α)) (i : Nat),
      i ∈ sched → i < slots.length →
      (fillSlots results sched slots).get? i = some (results.get? i) := by
  intro sched
  induction sched with
  | nil => intro slots i h; exact absurd h (by simp)
  | cons j rest ih =>
    intro slots i hmem hi
    by_cases hir : i ∈ rest
    · exact ih (slots.set j (results.get? j)) i hir (by simpa using hi)
    · have hij : j = i := by
        rcases List.mem_cons.mp hmem with h | h
        · exact h.symm
        · exact absurd h hir
      subst hij
      refine fillSlots_preserves results rest _ j ?_
      rw [List.get?_set_eq_of_lt _ (by simpa using hi)]

/-- The join of a fan-out is independent of completion order: whenever the
completion schedule is some permutation of the task indices, the filled result
array lists every task's value in task order. -/
theorem gatherJoin_eq (results : List α) (sched : List Nat)
    (h : sched.Perm (List.range results.length)) :
    gatherJoin results sched = results.map (fun a => some a) := by
  apply List.ext_get?
  intro i
  by_cases hi : i < results.length
  · have hmem : i ∈ sched := h.mem_iff.mpr (List.mem_range.mpr hi)
    have hslot : (gatherJoin results sched).get? i = some (results.get? i) := by
      refine fillSlots_mem results sched _ i hmem ?_
      simpa using hi
    rw [hslot, List.get?_eq_get hi, List.get?_eq_get (by simpa using hi)]
    simp
  · have hlen : (gatherJoin results sched).length = results.length := by
      simpa [gatherJoin] using fillSlots_length results sched (List.replicate results.length none)
    rw [List.get?_eq_none.mpr (by omega), List.get?_eq_none.mpr (by simpa using hi)]

/-! Inversion lemmas for the role operations and workflow nodes. -/

/-- Successful initial-draft invocation: the reply is wrapped unchanged. -/
theorem DraftAgent.create_initial_draft_ok (llm : LLM) (oracle : Oracle ε)
    (user_query : String) (r : AgentResponse)
    (h : DraftAgent.create_initial_draft llm oracle user_query = Except.ok r) :
    ∃ reply, oracle llm (DraftAgent.initialMessages user_query) = Except.ok reply ∧
      r = generate_response "draft_agent" "DraftAgent" reply := by
  unfold DraftAgent.create_initial_draft at h
  cases ho : oracle llm (DraftAgent.initialMessages user_query) with
  | error e => rw [ho] at h; exact Except.noConfusion h
  | ok reply => rw [ho] at h; exact ⟨reply, rfl, (Except.ok.inj h).symm⟩

/-- Successful revision invocation: the wrapped reply with the `"revision"`
flag inserted into its metadata afterwards. -/
theorem DraftAgent.update_draft_ok (llm : LLM) (oracle : Oracle ε)
    (current_draft : String) (feedback : List String) (r : AgentResponse)
    (h : DraftAgent.update_draft llm oracle current_draft feedback = Except.ok r) :
    ∃ reply, oracle llm (DraftAgent.updateMessages current_draft feedback) =
        Except.ok reply ∧
      r = { generate_response "draft_agent" "DraftAgent" reply with
        metadata := dictInsert
          (generate_response "draft_agent" "DraftAgent" reply).metadata
          "revision" (MetaValue.bool true) } := by
  unfold DraftAgent.update_draft at h
  cases ho : oracle llm (DraftAgent.updateMessages current_draft feedback) with
  | error e => rw [ho] at h; exact Except.noConfusion h
  | ok reply => rw [ho] at h; exact ⟨reply, rfl, (Except.ok.inj h).symm⟩

/-- Successful critique invocation: the wrapped reply with the `"round"`
number inserted into its metadata afterwards. -/
theorem CouncilMember.provide_feedback_ok (member : CouncilMemberData)
    (oracle : Oracle ε) (user_query current_draft : String) (round_number : Nat)
    (r : AgentResponse)
    (h : CouncilMember.provide_feedback member oracle user_query current_draft
      round_number = Except.ok r) :
    ∃ reply, oracle member.llm (CouncilMember.feedbackMessages member.perspective
        user_query current_draft round_number) = Except.ok reply ∧
      r = { generate_response member.agent_id "CouncilMember" reply with
        metadata := dictInsert
          (generate_response member.agent_id "CouncilMember" reply).metadata
          "round" (MetaValue.nat round_number) } := by
  unfold CouncilMember.provide_feedback at h
  cases ho : oracle member.llm (CouncilMember.feedbackMessages member.perspective
      user_query current_draft round_number) with
  | error e => rw [ho] at h; exact Except.noConfusion h
  | ok reply => rw [ho] at h; exact ⟨reply, rfl, (Except.ok.inj h).symm⟩

/-- Successful final-edit invocation: the wrapped reply with the `"final"`
flag inserted into its metadata afterwards. -/
theorem EditorAgent.edit_final_response_ok (llm : LLM) (oracle : Oracle ε)
    (user_query final_draft : String) (debate_history : List (List FeedbackEntry))
    (r : AgentResponse)
    (h : EditorAgent.edit_final_response llm oracle user_query final_draft
      debate_history = Except.ok r) :
    ∃ reply, oracle llm (EditorAgent.editMessages user_query final_draft) =
        Except.ok reply ∧
      r = { generate_response "editor_agent" "EditorAgent" reply with
        metadata := dictInsert
          (generate_response "editor_agent" "EditorAgent" reply).metadata
          "final" (MetaValue.bool true) } := by
  unfold EditorAgent.edit_final_response at h
  cases ho : oracle llm (EditorAgent.editMessages user_query final_draft) with
  | error e => rw [ho] at h; exact Except.noConfusion h
  | ok reply => rw [ho] at h; exact ⟨reply, rfl, (Except.ok.inj h).symm⟩

/-- Inversion of the `create_draft` node on success. -/
theorem CouncilWorkflow.create_initial_draft_node_ok (wf : CouncilWorkflow)
    (oracle : Oracle ε) (st : CouncilState)
    (out : CouncilState × List Event × List Fanout)
    (h : wf.create_initial_draft oracle st = Except.ok out) :
    ∃ response,
      DraftAgent.create_initial_draft wf.draft_agent oracle st.user_query =
        Except.ok response ∧
      out = ({ st with
          current_draft := response.content,
          drafts := st.drafts ++ [response.content],
          current_round := 0 },
        (if wf.hasCallback then [Event.status "Creating initial draft..."] else []) ++
          (if wf.hasCallback then [Event.draft_created response] else []),
        []) := by
  simp only [CouncilWorkflow.create_initial_draft] at h
  cases hr : DraftAgent.create_initial_draft wf.draft_agent oracle st.user_query with
  | error e => rw [hr] at h; exact Except.noConfusion h
  | ok response => rw [hr] at h; exact ⟨response, rfl, (Except.ok.inj h).symm⟩

/-- Inversion of the `council_debate` node on success: the gather succeeded
and the node committed the round bump, the appended feedback round (reduced in
configured member order), the two notifications and the recorded fan-out. -/
theorem CouncilWorkflow.council_debate_ok (wf : CouncilWorkflow)
    (oracle : Oracle ε) (st : CouncilState)
    (out : CouncilState × List Event × List Fanout)
    (h : wf.council_debate oracle st = Except.ok out) :
    ∃ responses,
      gatherExcept (wf.council_members.map (fun member =>
        CouncilMember.provide_feedback member oracle st.user_query st.current_draft
          (st.current_round + 1))) = Except.ok responses ∧
      out = ({ st with
          current_round := st.current_round + 1,
          feedback_history := st.feedback_history ++
            [responses.map (fun response =>
              FeedbackEntry.mk response.agent_id response.content)] },
        (if wf.hasCallback then
          [Event.status ("Council debate round " ++ toString (st.current_round + 1) ++ "...")]
         else []) ++
          (if wf.hasCallback then
            [Event.feedback_round (st.current_round + 1)
              (responses.map (fun response =>
                FeedbackEntry.mk response.agent_id response.content))]
           else []),
        [wf.council_members.map (fun member =>
          (member.llm, CouncilMember.feedbackMessages member.perspective
            st.user_query st.current_draft (st.current_round + 1)))]) := by
  simp only [CouncilWorkflow.council_debate] at h
  cases hg : gatherExcept (wf.council_members.map (fun member =>
      CouncilMember.provide_feedback member oracle st.user_query st.current_draft
        (st.current_round + 1))) with
  | error e => rw [hg] at h; exact Except.noConfusion h
  | ok responses => rw [hg] at h; exact ⟨responses, rfl, (Except.ok.inj h).symm⟩

/-- Inversion of the `update_draft` node on success. -/
theorem CouncilWorkflow.update_draft_node_ok (wf : CouncilWorkflow)
    (oracle : Oracle ε) (st : CouncilState)
    (out : CouncilState × List Event × List Fanout)
    (h : wf.update_draft oracle st = Except.ok out) :
    ∃ response,
      DraftAgent.update_draft wf.draft_agent oracle st.current_draft
        ((st.feedback_history.getLastD []).map (fun fb => fb.feedback)) =
        Except.ok response ∧
      out = ({ st with
          current_draft := response.content,
          drafts := st.drafts ++ [response.content] },
        (if wf.hasCallback then
          [Event.status "Updating draft based on feedback..."] else []) ++
          (if wf.hasCallback then [Event.draft_updated response] else []),
        []) := by
  simp only [CouncilWorkflow.update_draft] at h
  cases hr : DraftAgent.update_draft wf.draft_agent oracle st.current_draft
      ((st.feedback_history.getLastD []).map (fun fb => fb.feedback)) with
  | error e => rw [hr] at h; exact Except.noConfusion h
  | ok response => rw [hr] at h; exact ⟨response, rfl, (Except.ok.inj h).symm⟩

/-- Inversion of the `final_edit` node on success. -/
theorem CouncilWorkflow.final_edit_ok (wf : CouncilWorkflow)
    (oracle : Oracle ε) (st : CouncilState)
    (out : CouncilState × List Event × List Fanout)
    (h : wf.final_edit oracle st = Except.ok out) :
    ∃ response,
      EditorAgent.edit_final_response wf.editor_agent oracle st.user_query
        st.current_draft st.feedback_history = Except.ok response ∧
      out = ({ st with final_response := response.content },
        (if wf.hasCallback then [Event.status "Performing final edit..."] else []) ++
          (if wf.hasCallback then [Event.final_response response] else []),
        []) := by
  simp only [CouncilWorkflow.final_edit] at h
  cases hr : EditorAgent.edit_final_response wf.editor_agent oracle st.user_query
      st.current_draft st.feedback_history with
  | error e => rw [hr] at h; exact Except.noConfusion h
  | ok response => rw [hr] at h; exact ⟨response, rfl, (Except.ok.inj h).symm⟩

/-- The continue/stop predicate returns `"end"` exactly when the committed
round counter has reached the configured bound. -/
theorem should_continue_end_iff (st : CouncilState) :
    (should_continue_debate st = "end") ↔ st.max_rounds ≤ st.current_round := by
  unfold should_continue_debate
  split
  · next hge => exact iff_of_true rfl (by omega)
  · next hlt => exact iff_of_false (by decide) (by omega)

/-- The predicate-driven loop agrees with its fuel-indexed reformulation as
soon as the fuel bounds the number of remaining rounds. -/
theorem debateLoop_eq_fuel (wf : CouncilWorkflow) (oracle : Oracle ε) :
    ∀ (fuel : Nat) (st : CouncilState),
      st.max_rounds - st.current_round ≤ fuel + 1 →
      wf.debateLoop oracle st = wf.debateLoopFuel oracle fuel st := by
  intro fuel
  induction fuel with
  | zero =>
    intro st hb
    rw [CouncilWorkflow.debateLoop, CouncilWorkflow.debateLoopFuel]
    split
    · rename_i e heq1
      simp only [heq1]
    · rename_i st1 ev1 bt1 heq1
      simp only [heq1]
      have hf1 : st1.current_round = st.current_round + 1 ∧
          st1.max_rounds = st.max_rounds := by
        obtain ⟨responses, -, hout⟩ := wf.council_debate_ok oracle st _ heq1
        obtain ⟨h1, -⟩ := Prod.mk.injEq .. ▸ hout
        exact ⟨by rw [h1], by rw [h1]⟩
      by_cases hc : should_continue_debate st1 = "end"
      · rw [dif_pos hc, if_pos hc]
      · have hlt : st1.current_round < st1.max_rounds := by
          have := (not_iff_not.mpr (should_continue_end_iff st1)).mp hc
          omega
        exact absurd hb (by omega)
  | succ fuel ih =>
    intro st hb
    rw [CouncilWorkflow.debateLoop, CouncilWorkflow.debateLoopFuel]
    split
    · rename_i e heq1
      simp only [heq1]
    · rename_i st1 ev1 bt1 heq1
      simp only [heq1]
      have hf1 : st1.current_round = st.current_round + 1 ∧
          st1.max_rounds = st.max_rounds := by
        obtain ⟨responses, -, hout⟩ := wf.council_debate_ok oracle st _ heq1
        obtain ⟨h1, -⟩ := Prod.mk.injEq .. ▸ hout
        exact ⟨by rw [h1], by rw [h1]⟩
      by_cases hc : should_continue_debate st1 = "end"
      · rw [dif_pos hc, if_pos hc]
      · rw [dif_neg hc, if_neg hc]
        have hlt : st1.current_round < st1.max_rounds := by
          have := (not_iff_not.mpr (should_continue_end_iff st1)).mp hc
          omega
        split
        · rename_i e heq2
          simp only [heq2]
        · rename_i st2 ev2 bt2 heq2
          simp only [heq2]
          have hf2 : st2.current_round = st1.current_round ∧
              st2.max_rounds = st1.max_rounds := by
            obtain ⟨response, -, hout⟩ := wf.update_draft_node_ok oracle st1 _ heq2
            obtain ⟨h2, -⟩ := Prod.mk.injEq .. ▸ hout
            exact ⟨by rw [h2], by rw [h2]⟩
          rw [ih st2 (by omega)]

/-- Specialisation: enough fuel is always given by the round bound itself. -/
theorem debateLoop_eq_fuel_max (wf : CouncilWorkflow) (oracle : Oracle ε)
    (st : CouncilState) :
    wf.debateLoop oracle st = wf.debateLoopFuel oracle st.max_rounds st :=
  match hm : st.max_rounds with
  | 0 => by
    have := debateLoop_eq_fuel wf oracle 0 st (by omega)
    simpa [hm] using this
  | m + 1 => by
    have := debateLoop_eq_fuel wf oracle (m + 1) st (by omega)
    simpa [hm] using this

/-! Bookkeeping corollaries of the node inversions. -/

/-- Field bookkeeping of a successful `create_draft` node. -/
theorem create_initial_draft_bk (wf : CouncilWorkflow) (oracle : Oracle ε)
    (st st1 : CouncilState) (ev1 : List Event) (bt1 : List Fanout)
    (h : wf.create_initial_draft oracle st = Except.ok (st1, ev1, bt1)) :
    st1.drafts.length = st.drafts.length + 1 ∧
    st1.feedback_history = st.feedback_history ∧
    st1.current_round = 0 ∧
    st1.max_rounds = st.max_rounds ∧
    bt1 = [] ∧
    ev1.countP Event.isDraftUpdated = 0 ∧
    ev1.map Event.tag =
      (if wf.hasCallback then [ETag.status, ETag.draft_created] else []) := by
  obtain ⟨response, -, hout⟩ := wf.create_initial_draft_node_ok oracle st _ h
  obtain ⟨h1, hrest⟩ := Prod.mk.injEq .. ▸ hout
  obtain ⟨h2, h3⟩ := Prod.mk.injEq .. ▸ hrest
  subst h1
  subst h2
  subst h3
  refine ⟨by simp, by simp, rfl, rfl, rfl, ?_, ?_⟩ <;>
    cases wf.hasCallback <;> simp [Event.isDraftUpdated, Event.tag]

/-- Field bookkeeping of a successful `council_debate` node. -/
theorem council_debate_bk (wf : CouncilWorkflow) (oracle : Oracle ε)
    (st st1 : CouncilState) (ev1 : List Event) (bt1 : List Fanout)
    (h : wf.council_debate oracle st = Except.ok (st1, ev1, bt1)) :
    st1.drafts = st.drafts ∧
    st1.feedback_history.length = st.feedback_history.length + 1 ∧
    st1.current_round = st.current_round + 1 ∧
    st1.max_rounds = st.max_rounds ∧
    bt1.length = 1 ∧
    ev1.countP Event.isDraftUpdated = 0 ∧
    ev1.map Event.tag =
      (if wf.hasCallback then
        [ETag.status, ETag.feedback_round (st.current_round + 1)] else []) := by
  obtain ⟨responses, -, hout⟩ := wf.council_debate_ok oracle st _ h
  obtain ⟨h1, hrest⟩ := Prod.mk.injEq .. ▸ hout
  obtain ⟨h2, h3⟩ := Prod.mk.injEq .. ▸ hrest
  subst h1
  subst h2
  subst h3
  refine ⟨rfl, by simp, rfl, rfl, rfl, ?_, ?_⟩ <;>
    cases wf.hasCallback <;> simp [Event.isDraftUpdated, Event.tag]

/-- Field bookkeeping of a successful `update_draft` node. -/
theorem update_draft_bk (wf : CouncilWorkflow) (oracle : Oracle ε)
    (st st1 : CouncilState) (ev1 : List Event) (bt1 : List Fanout)
    (h : wf.update_draft oracle st = Except.ok (st1, ev1, bt1)) :
    st1.drafts.length = st.drafts.length + 1 ∧
    st1.feedback_history = st.feedback_history ∧
    st1.current_round = st.current_round ∧
    st1.max_rounds = st.max_rounds ∧
    bt1 = [] ∧
    ev1.countP Event.isDraftUpdated = (if wf.hasCallback then 1 else 0) ∧
    ev1.map Event.tag =
      (if wf.hasCallback then [ETag.status, ETag.draft_updated] else []) := by
  obtain ⟨response, -, hout⟩ := wf.update_draft_node_ok oracle st _ h
  obtain ⟨h1, hrest⟩ := Prod.mk.injEq .. ▸ hout
  obtain ⟨h2, h3⟩ := Prod.mk.injEq .. ▸ hrest
  subst h1
  subst h2
  subst h3
  refine ⟨by simp, rfl, rfl, rfl, rfl, ?_, ?_⟩ <;>
    cases wf.hasCallback <;> simp [Event.isDraftUpdated, Event.tag]

/-- Field bookkeeping of a successful `final_edit` node. -/
theorem final_edit_bk (wf : CouncilWorkflow) (oracle : Oracle ε)
    (st st1 : CouncilState) (ev1 : List Event) (bt1 : List Fanout)
    (h : wf.final_edit oracle st = Except.ok (st1, ev1, bt1)) :
    st1.drafts = st.drafts ∧
    st1.feedback_history = st.feedback_history ∧
    st1.current_round = st.current_round ∧
    st1.max_rounds = st.max_rounds ∧
    bt1 = [] ∧
    ev1.countP Event.isDraftUpdated = 0 ∧
    ev1.map Event.tag =
      (if wf.hasCallback then [ETag.status, ETag.final_response] else []) := by
  obtain ⟨response, -, hout⟩ := wf.final_edit_ok oracle st _ h
  obtain ⟨h1, hrest⟩ := Prod.mk.injEq .. ▸ hout
  obtain ⟨h2, h3⟩ := Prod.mk.injEq .. ▸ hrest
  subst h1
  subst h2
  subst h3
  refine ⟨rfl, rfl, rfl, rfl, rfl, ?_, ?_⟩ <;>
    cases wf.hasCallback <;> simp [Event.isDraftUpdated, Event.tag]

/-- Master bookkeeping of a successful pass through the debate loop, by
induction on a fuel bound: with `D = max (max_rounds - current_round) 1` the
loop performs `D` critique rounds (one appended feedback round and one
recorded fan-out each) and `D - 1` revisions, and its notification trace
follows `loopTags`. -/
theorem debateLoop_ok_bk (wf : CouncilWorkflow) (oracle : Oracle ε) :
    ∀ (fuel : Nat) (st st' : CouncilState) (ev : List Event) (bt : List Fanout),
      st.max_rounds - st.current_round ≤ fuel + 1 →
      wf.debateLoop oracle st = Except.ok (st', ev, bt) →
      st'.feedback_history.length =
          st.feedback_history.length + max (st.max_rounds - st.current_round) 1 ∧
      st'.drafts.length =
          st.drafts.length + (max (st.max_rounds - st.current_round) 1 - 1) ∧
      bt.length = max (st.max_rounds - st.current_round) 1 ∧
      ev.countP Event.isDraftUpdated =
          (if wf.hasCallback then max (st.max_rounds - st.current_round) 1 - 1
           else 0) ∧
      ev.map Event.tag = loopTags wf.hasCallback st.current_round st.max_rounds := by
  intro fuel
  induction fuel with
  | zero =>
    intro st st' ev bt hb h
    rw [CouncilWorkflow.debateLoop] at h
    split at h
    · exact Except.noConfusion h
    · rename_i st1 ev1 bt1 heq1
      obtain ⟨bk1d, bk1f, bk1c, bk1m, bk1b, bk1n, bk1t⟩ :=
        council_debate_bk wf oracle st st1 ev1 bt1 heq1
      split at h
      · rename_i hc
        have hend : st1.max_rounds ≤ st1.current_round :=
          (should_continue_end_iff st1).mp hc
        split at h
        · exact Except.noConfusion h
        · rename_i st2 ev2 bt2 heq2
          obtain ⟨bk2d, bk2f, bk2c, bk2m, bk2b, bk2n, bk2t⟩ :=
            final_edit_bk wf oracle st1 st2 ev2 bt2 heq2
          obtain ⟨h1, hrest⟩ := Prod.mk.injEq .. ▸ Except.ok.inj h.symm
          obtain ⟨h2, h3⟩ := Prod.mk.injEq .. ▸ hrest
          subst h1
          subst h2
          subst h3
          have hD : max (st.max_rounds - st.current_round) 1 = 1 := by omega
          refine ⟨by rw [bk2f]; omega, by rw [bk2d, bk1d]; omega, ?_, ?_, ?_⟩
          · simp [bk2b, bk1b, hD]
          · rw [List.countP_append, bk1n, bk2n, hD]
            cases wf.hasCallback <;> simp
          · rw [List.map_append, bk1t, bk2t, loopTags, dif_pos (by omega)]
      · rename_i hc
        have hcont : st1.current_round < st1.max_rounds := by
          have := (not_iff_not.mpr (should_continue_end_iff st1)).mp hc
          omega
        exact absurd hb (by omega)
  | succ fuel ih =>
    intro st st' ev bt hb h
    rw [CouncilWorkflow.debateLoop] at h
    split at h
    · exact Except.noConfusion h
    · rename_i st1 ev1 bt1 heq1
      obtain ⟨bk1d, bk1f, bk1c, bk1m, bk1b, bk1n, bk1t⟩ :=
        council_debate_bk wf oracle st st1 ev1 bt1 heq1
      split at h
      · rename_i hc
        have hend : st1.max_rounds ≤ st1.current_round :=
          (should_continue_end_iff st1).mp hc
        split at h
        · exact Except.noConfusion h
        · rename_i st2 ev2 bt2 heq2
          obtain ⟨bk2d, bk2f, bk2c, bk2m, bk2b, bk2n, bk2t⟩ :=
            final_edit_bk wf oracle st1 st2 ev2 bt2 heq2
          obtain ⟨h1, hrest⟩ := Prod.mk.injEq .. ▸ Except.ok.inj h.symm
          obtain ⟨h2, h3⟩ := Prod.mk.injEq .. ▸ hrest
          subst h1
          subst h2
          subst h3
          have hD : max (st.max_rounds - st.current_round) 1 = 1 := by omega
          refine ⟨by rw [bk2f]; omega, by rw [bk2d, bk1d]; omega, ?_, ?_, ?_⟩
          · simp [bk2b, bk1b, hD]
          · rw [List.countP_append, bk1n, bk2n, hD]
            cases wf.hasCallback <;> simp
          · rw [List.map_append, bk1t, bk2t, loopTags, dif_pos (by omega)]
      · rename_i hc
        have hcont : st1.current_round < st1.max_rounds := by
          have := (not_iff_not.mpr (should_continue_end_iff st1)).mp hc
          omega
        split at h
        · exact Except.noConfusion h
        · rename_i st2 ev2 bt2 heq2
          obtain ⟨bk2d, bk2f, bk2c, bk2m, bk2b, bk2n, bk2t⟩ :=
            update_draft_bk wf oracle st1 st2 ev2 bt2 heq2
          split at h
          · exact Except.noConfusion h
          · rename_i st3 ev3 bt3 heq3
            obtain ⟨sp3f, sp3d, sp3b, sp3n, sp3t⟩ :=
              ih st2 st3 ev3 bt3 (by omega) heq3
            obtain ⟨h1, hrest⟩ := Prod.mk.injEq .. ▸ Except.ok.inj h.symm
            obtain ⟨h2, h3⟩ := Prod.mk.injEq .. ▸ hrest
            subst h1
            subst h2
            subst h3
            have hD : max (st.max_rounds - st.current_round) 1 =
                st.max_rounds - st.current_round := by omega
            have hD2 : max (st2.max_rounds - st2.current_round) 1 =
                st.max_rounds - st.current_round - 1 := by omega
            refine ⟨?_, ?_, ?_, ?_, ?_⟩
            · rw [sp3f, bk2f, bk1f]
              omega
            · rw [sp3d, bk2d, bk1d]
              omega
            · simp only [List.length_append, bk1b, bk2b, sp3b]
              simp
              omega
            · rw [List.countP_append, List.countP_append, bk1n, bk2n, sp3n]
              cases wf.hasCallback <;> simp <;> omega
            · rw [List.map_append, List.map_append, bk1t, bk2t, sp3t,
                bk2c, bk1c, bk2m, bk1m]
              conv_rhs => rw [loopTags]
              rw [dif_neg (by omega)]
              simp [List.append_assoc]

/-- Master bookkeeping of a successful `run`: with `R = debate_rounds >= 1`,
exactly `R` feedback rounds are appended, the final state holds `R` drafts,
exactly `R` reviewer fan-outs were performed, there are `R - 1` revision
notifications when a callback is supplied (none otherwise), and the
notification trace is the initial-draft prefix followed by `loopTags`. -/
theorem runState_ok_bk (wf : CouncilWorkflow) (oracle : Oracle ε) (q : String)
    (st' : CouncilState) (ev : List Event) (bt : List Fanout)
    (hR : 1 ≤ wf.debate_rounds)
    (h : wf.runState oracle q = Except.ok (st', ev, bt)) :
    st'.feedback_history.length = wf.debate_rounds ∧
    st'.drafts.length = wf.debate_rounds ∧
    bt.length = wf.debate_rounds ∧
    ev.countP Event.isDraftUpdated =
      (if wf.hasCallback then wf.debate_rounds - 1 else 0) ∧
    ev.map Event.tag =
      (if wf.hasCallback then [ETag.status, ETag.draft_created] else []) ++
        loopTags wf.hasCallback 0 wf.debate_rounds := by
  unfold CouncilWorkflow.runState at h
  split at h
  · exact Except.noConfusion h
  · rename_i st1 ev1 bt1 heq1
    obtain ⟨bk1d, bk1f, bk1c, bk1m, bk1b, bk1n, bk1t⟩ :=
      create_initial_draft_bk wf oracle _ st1 ev1 bt1 heq1
    split at h
    · exact Except.noConfusion h
    · rename_i st2 ev2 bt2 heq2
      obtain ⟨sp2f, sp2d, sp2b, sp2n, sp2t⟩ :=
        debateLoop_ok_bk wf oracle st1.max_rounds st1 st2 ev2 bt2 (by omega) heq2
      obtain ⟨h1, hrest⟩ := Prod.mk.injEq .. ▸ Except.ok.inj h.symm
      obtain ⟨h2, h3⟩ := Prod.mk.injEq .. ▸ hrest
      subst h1
      subst h2
      subst h3
      have hi1 : (wf.initialState q).drafts.length = 0 := rfl
      have hi3 : (wf.initialState q).max_rounds = wf.debate_rounds := rfl
      have bk1f' : st1.feedback_history.length = 0 := by rw [bk1f]; rfl
      rw [hi1] at bk1d
      rw [hi3] at bk1m
      refine ⟨?_, ?_, ?_, ?_, ?_⟩
      · rw [sp2f, bk1f']
        omega
      · rw [sp2d]
        omega
      · rw [List.length_append, bk1b, sp2b]
        simp
        omega
      · rw [List.countP_append, bk1n, sp2n]
        cases wf.hasCallback <;> simp <;> omega
      · rw [List.map_append, bk1t, sp2t, bk1c, bk1m]

/-- C1: for every configuration with `debate_rounds = R` (`R >= 1`) and every
completed run of the engine, exactly `R` rounds are appended to
`feedback_history` and exactly `R` concurrent reviewer fan-outs are performed,
independent of how many reviewers are configured (the statement quantifies
over every workflow, hence over every council size). -/
theorem claim_C1_rounds_and_fanouts (wf : CouncilWorkflow) (oracle : Oracle ε)
    (q : String) (R : Nat) (p : Nat × Nat)
    (hR : wf.debate_rounds = R) (h1 : 1 ≤ R)
    (h : (wf.runState oracle q).map
      (fun out => (out.1.feedback_history.length, out.2.2.length)) =
      Except.ok p) :
    p = (R, R) := by
  subst hR
  cases hrun : wf.runState oracle q with
  | error e => rw [hrun] at h; exact Except.noConfusion h
  | ok out =>
    obtain ⟨st', ev, bt⟩ := out
    rw [hrun] at h
    obtain ⟨hf, -, hb, -, -⟩ :=
      runState_ok_bk wf oracle q st' ev bt (by omega) hrun
    have hp : (st'.feedback_history.length, bt.length) = p := Except.ok.inj h
    rw [← hp, hf, hb]

/-- Witness for C1 at a concrete two-round configuration and oracle. -/
theorem claim_C1_witness :
    wNone.debate_rounds = 2 ∧
    ((wNone.runState okOracle "q").map
      (fun out => (out.1.feedback_history.length, out.2.2.length)) =
      Except.ok (2, 2)) ∧
    ((2, 2) : Nat × Nat) = (2, 2) := by
  have h : (wNone.runState okOracle "q").map
      (fun out => (out.1.feedback_history.length, out.2.2.length)) =
      Except.ok (2, 2) := by
    unfold CouncilWorkflow.runState
    simp only [debateLoop_eq_fuel_max]
    decide
  exact ⟨rfl, h, claim_C1_rounds_and_fanouts wNone okOracle "q" 2 (2, 2) rfl
    (by omega) h⟩

/-- C5: for every completed run with `debate_rounds = R >= 1` and a callback
supplied, the number of `UPDATE_DRAFT` stages executed (observed as
`draft_updated` notifications) equals `max (R - 1) 0`, and the final state
holds `1 + max (R - 1) 0` drafts: one draft and no update for `R = 1`, three
drafts and two updates for `R = 3`. -/
theorem claim_C5_update_stage_count (wf : CouncilWorkflow) (oracle : Oracle ε)
    (q : String) (R : Nat) (p : Nat × Nat)
    (hR : wf.debate_rounds = R) (h1 : 1 ≤ R) (hcb : wf.hasCallback = true)
    (h : (wf.runState oracle q).map
      (fun out => (out.1.drafts.length, out.2.1.countP Event.isDraftUpdated)) =
      Except.ok p) :
    p = (1 + max (R - 1) 0, max (R - 1) 0) := by
  subst hR
  cases hrun : wf.runState oracle q with
  | error e => rw [hrun] at h; exact Except.noConfusion h
  | ok out =>
    obtain ⟨st', ev, bt⟩ := out
    rw [hrun] at h
    obtain ⟨-, hd, -, hn, -⟩ :=
      runState_ok_bk wf oracle q st' ev bt (by omega) hrun
    have hp : (st'.drafts.length, ev.countP Event.isDraftUpdated) = p :=
      Except.ok.inj h
    rw [← hp, hd, hn, hcb]
    have : max (wf.debate_rounds - 1) 0 = wf.debate_rounds - 1 := by omega
    rw [this, if_pos rfl]
    have : 1 + (wf.debate_rounds - 1) = wf.debate_rounds := by omega
    rw [this]

/-- Witness for C5 at a concrete three-round configuration and oracle:
three drafts, two revisions. -/
theorem claim_C5_witness :
    wThree.debate_rounds = 3 ∧ wThree.hasCallback = true ∧
    ((wThree.runState okOracle "q").map
      (fun out => (out.1.drafts.length, out.2.1.countP Event.isDraftUpdated)) =
      Except.ok (3, 2)) ∧
    ((3, 2) : Nat × Nat) = (1 + max (3 - 1) 0, max (3 - 1) 0) := by
  have h : (wThree.runState okOracle "q").map
      (fun out => (out.1.drafts.length, out.2.1.countP Event.isDraftUpdated)) =
      Except.ok (3, 2) := by
    unfold CouncilWorkflow.runState
    simp only [debateLoop_eq_fuel_max]
    decide
  exact ⟨rfl, rfl, h, claim_C5_update_stage_count wThree okOracle "q" 3 (3, 2)
    rfl (by omega) rfl h⟩

/-- C7: every completed run with `debate_rounds = 2`, two configured
reviewers and a callback emits exactly the ten notifications
`status, draft_created, status, feedback_round(1), status, draft_updated,
status, feedback_round(2), status, final_response` — in particular no third
debate round and no second update after `feedback_round(2)`. -/
theorem claim_C7_event_sequence (wf : CouncilWorkflow) (oracle : Oracle ε)
    (q : String) (tags : List ETag)
    (hR : wf.debate_rounds = 2) (hN : wf.council_members.length = 2)
    (hcb : wf.hasCallback = true)
    (h : (wf.runState oracle q).map (fun out => out.2.1.map Event.tag) =
      Except.ok tags) :
    tags = [ETag.status, ETag.draft_created, ETag.status, ETag.feedback_round 1,
      ETag.status, ETag.draft_updated, ETag.status, ETag.feedback_round 2,
      ETag.status, ETag.final_response] := by
  cases hrun : wf.runState oracle q with
  | error e => rw [hrun] at h; exact Except.noConfusion h
  | ok out =>
    obtain ⟨st', ev, bt⟩ := out
    rw [hrun] at h
    obtain ⟨-, -, -, -, ht⟩ :=
      runState_ok_bk wf oracle q st' ev bt (by omega) hrun
    have hp : ev.map Event.tag = tags := Except.ok.inj h
    have hlt : loopTags wf.hasCallback 0 wf.debate_rounds =
        [ETag.status, ETag.feedback_round 1, ETag.status, ETag.draft_updated,
         ETag.status, ETag.feedback_round 2, ETag.status, ETag.final_response] := by
      rw [hcb, hR]
      rw [loopTags, dif_neg (by omega), loopTags, dif_pos (by omega)]
      simp
    rw [← hp, ht, hlt, hcb]
    simp

/-- Witness for C7 at a concrete two-round, two-reviewer configuration. -/
theorem claim_C7_witness :
    wTwo.debate_rounds = 2 ∧ wTwo.council_members.length = 2 ∧
    wTwo.hasCallback = true ∧
    ((wTwo.runState okOracle "Explain X").map
      (fun out => out.2.1.map Event.tag) =
      Except.ok [ETag.status, ETag.draft_created, ETag.status,
        ETag.feedback_round 1, ETag.status, ETag.draft_updated, ETag.status,
        ETag.feedback_round 2, ETag.status, ETag.final_response]) ∧
    [ETag.status, ETag.draft_created, ETag.status, ETag.feedback_round 1,
      ETag.status, ETag.draft_updated, ETag.status, ETag.feedback_round 2,
      ETag.status, ETag.final_response] =
    [ETag.status, ETag.draft_created, ETag.status, ETag.feedback_round 1,
      ETag.status, ETag.draft_updated, ETag.status, ETag.feedback_round 2,
      ETag.status, ETag.final_response] := by
  have h : (wTwo.runState okOracle "Explain X").map
      (fun out => out.2.1.map Event.tag) =
      Except.ok [ETag.status, ETag.draft_created, ETag.status,
        ETag.feedback_round 1, ETag.status, ETag.draft_updated, ETag.status,
        ETag.feedback_round 2, ETag.status, ETag.final_response] := by
    unfold CouncilWorkflow.runState
    simp only [debateLoop_eq_fuel_max]
    decide
  exact ⟨rfl, rfl, rfl, h, claim_C7_event_sequence wTwo okOracle "Explain X" _
    rfl rfl rfl h⟩

/-- C6: if one reviewer's invocation fails during a round's fan-out (and the
reviewers before it in configuration order succeeded, so its exception is the
one the gather surfaces), the debate node aborts with exactly that error, and
a run whose initial draft led into this round fails with that error
propagated unchanged — the `Except.error` outcome carries no state, so no
partial `feedback_history` entry is recorded and none is used for a
revision. -/
theorem claim_C6_reviewer_failure (wf : CouncilWorkflow) (oracle : Oracle ε)
    (q : String) (st1 : CouncilState) (ev1 : List Event) (bt1 : List Fanout)
    (k : Nat) (hk : k < wf.council_members.length) (e : ε)
    (hcre : wf.create_initial_draft oracle (wf.initialState q) =
      Except.ok (st1, ev1, bt1))
    (he : CouncilMember.provide_feedback (wf.council_members.get ⟨k, hk⟩) oracle
      st1.user_query st1.current_draft (st1.current_round + 1) = Except.error e)
    (hpre : ∀ (j : Nat) (hj : j < wf.council_members.length), j < k →
      ∃ r, CouncilMember.provide_feedback (wf.council_members.get ⟨j, hj⟩) oracle
        st1.user_query st1.current_draft (st1.current_round + 1) = Except.ok r) :
    wf.council_debate oracle st1 = Except.error e ∧
    wf.runState oracle q = Except.error e ∧
    wf.run oracle q = Except.error e := by
  have hgather : gatherExcept (wf.council_members.map (fun member =>
      CouncilMember.provide_feedback member oracle st1.user_query
        st1.current_draft (st1.current_round + 1))) = Except.error e := by
    refine gatherExcept_error _ k (by simpa using hk) e ?_ ?_
    · rw [List.get_eq_getElem, List.getElem_map]
      rw [List.get_eq_getElem] at he
      exact he
    · intro j hj hjk
      obtain ⟨r, hr⟩ := hpre j (by simpa using hj) hjk
      refine ⟨r, ?_⟩
      rw [List.get_eq_getElem, List.getElem_map]
      rw [List.get_eq_getElem] at hr
      exact hr
  have hcd : wf.council_debate oracle st1 = Except.error e := by
    simp only [CouncilWorkflow.council_debate, hgather]
  have hloop : wf.debateLoop oracle st1 = Except.error e := by
    rw [CouncilWorkflow.debateLoop]
    split
    · rename_i e' heq'
      exact heq'.symm.trans hcd
    · rename_i st1' ev1' bt1' heq'
      exact Except.noConfusion (heq'.symm.trans hcd)
  have hrun : wf.runState oracle q = Except.error e := by
    unfold CouncilWorkflow.runState
    split
    · rename_i e' heq'
      exact Except.noConfusion (heq'.symm.trans hcre)
    · rename_i st1' ev1' bt1' heq'
      have h3 := heq'.symm.trans hcre
      obtain ⟨hA, hB⟩ := Prod.mk.injEq .. ▸ Except.ok.inj h3
      subst hA
      split
      · rename_i e' heq2
        exact heq2.symm.trans hloop
      · rename_i st2 ev2 bt2 heq2
        exact Except.noConfusion (heq2.symm.trans hloop)
  refine ⟨hcd, hrun, ?_⟩
  unfold CouncilWorkflow.run
  split
  · rename_i e' heq'
    exact congrArg Except.error (Except.error.inj (heq'.symm.trans hrun))
  · rename_i o st ev bt heq'
    exact Except.noConfusion (heq'.symm.trans hrun)

/-- Witness for C6: with two configured reviewers, the second one failing and
the first one succeeding, the round and the whole run abort with the
reviewer's error. -/
theorem claim_C6_witness :
    (wTwo.create_initial_draft failOracle (wTwo.initialState "Explain X") =
      Except.ok
        ({ user_query := "Explain X", current_draft := "m", drafts := ["m"],
           feedback_history := [], current_round := 0, max_rounds := 2,
           final_response := "" },
         [Event.status "Creating initial draft...",
          Event.draft_created
            (AgentResponse.mk "m" "draft_agent" "DraftAgent" [])],
         [])) ∧
    wTwo.council_debate failOracle
      { user_query := "Explain X", current_draft := "m", drafts := ["m"],
        feedback_history := [], current_round := 0, max_rounds := 2,
        final_response := "" } = Except.error "boom" ∧
    wTwo.runState failOracle "Explain X" = Except.error "boom" ∧
    wTwo.run failOracle "Explain X" = Except.error "boom" := by
  have hcre : wTwo.create_initial_draft failOracle (wTwo.initialState "Explain X") =
      Except.ok
        ({ user_query := "Explain X", current_draft := "m", drafts := ["m"],
           feedback_history := [], current_round := 0, max_rounds := 2,
           final_response := "" },
         [Event.status "Creating initial draft...",
          Event.draft_created
            (AgentResponse.mk "m" "draft_agent" "DraftAgent" [])],
         []) := by decide
  have happ := claim_C6_reviewer_failure wTwo failOracle "Explain X" _ _ _ 1
    (by decide) "boom" hcre (by decide)
    (by
      intro j hj hjk
      have hj0 : j = 0 := by omega
      subst hj0
      have hgt : wTwo.council_members.get ⟨0, hj⟩ =
          CouncilMemberData.mk "council_member_0" 0 (LLM.mk "r0" (7 / 10))
            "Council Member 1" := rfl
      rw [hgt]
      exact ⟨AgentResponse.mk "r0" "council_member_0" "CouncilMember"
        [("round", MetaValue.nat 1)], by decide⟩)
  exact ⟨hcre, happ.1, happ.2.1, happ.2.2⟩

/-! Helpers for callback-transparency (claim C8). -/

/-- A mapped result that is an error comes from the same error. -/
theorem exceptMap_eq_error {α β : Type} (x : Except ε α) (f : α → β) (e : ε)
    (h : x.map f = Except.error e) : x = Except.error e := by
  cases x with
  | error e' => exact congrArg Except.error (Except.error.inj h)
  | ok a => exact Except.noConfusion h

/-- A mapped result that is a success comes from a success with the same
image. -/
theorem exceptMap_eq_ok {α β : Type} (x : Except ε α) (f : α → β) (b : β)
    (h : x.map f = Except.ok b) : ∃ a, x = Except.ok a ∧ f a = b := by
  cases x with
  | error e' => exact Except.noConfusion h
  | ok a => exact ⟨a, rfl, Except.ok.inj h⟩

/-- Mapping twice fuses. -/
theorem exceptMap_comp {α β γ : Type} (x : Except ε α) (g : α → β) (f : β → γ) :
    (x.map g).map f = x.map (fun a => f (g a)) := by
  cases x <;> rfl

/-- `run` is the `final_response` projection of `runState`. -/
theorem run_eq_map (wf : CouncilWorkflow) (oracle : Oracle ε) (q : String) :
    wf.run oracle q = (wf.runState oracle q).map (fun out => out.1.final_response) := by
  unfold CouncilWorkflow.run
  cases wf.runState oracle q <;> rfl

/-- The initial state does not depend on the callback flag. -/
theorem initialState_flag (wf : CouncilWorkflow) (b : Bool) (q : String) :
    ({ wf with hasCallback := b }).initialState q = wf.initialState q := rfl

/-- The `create_draft` node's state and fan-outs do not depend on the
callback flag. -/
theorem create_initial_draft_flag (wf : CouncilWorkflow) (b : Bool)
    (oracle : Oracle ε) (st : CouncilState) :
    (({ wf with hasCallback := b }).create_initial_draft oracle st).map
      (fun (out : CouncilState × List Event × List Fanout) => (out.1, out.2.2)) =
    (wf.create_initial_draft oracle st).map
      (fun (out : CouncilState × List Event × List Fanout) => (out.1, out.2.2)) := by
  unfold CouncilWorkflow.create_initial_draft
  dsimp only
  cases DraftAgent.create_initial_draft wf.draft_agent oracle st.user_query <;> rfl

/-- The `council_debate` node's state and fan-outs do not depend on the
callback flag. -/
theorem council_debate_flag (wf : CouncilWorkflow) (b : Bool)
    (oracle : Oracle ε) (st : CouncilState) :
    (({ wf with hasCallback := b }).council_debate oracle st).map
      (fun (out : CouncilState × List Event × List Fanout) => (out.1, out.2.2)) =
    (wf.council_debate oracle st).map
      (fun (out : CouncilState × List Event × List Fanout) => (out.1, out.2.2)) := by
  unfold CouncilWorkflow.council_debate
  dsimp only
  cases gatherExcept (wf.council_members.map (fun member =>
    CouncilMember.provide_feedback member oracle st.user_query st.current_draft
      (st.current_round + 1))) <;> rfl

/-- The `update_draft` node's state and fan-outs do not depend on the
callback flag. -/
theorem update_draft_flag (wf : CouncilWorkflow) (b : Bool)
    (oracle : Oracle ε) (st : CouncilState) :
    (({ wf with hasCallback := b }).update_draft oracle st).map
      (fun (out : CouncilState × List Event × List Fanout) => (out.1, out.2.2)) =
    (wf.update_draft oracle st).map
      (fun (out : CouncilState × List Event × List Fanout) => (out.1, out.2.2)) := by
  unfold CouncilWorkflow.update_draft
  dsimp only
  cases DraftAgent.update_draft wf.draft_agent oracle st.current_draft
    ((st.feedback_history.getLastD []).map (fun fb => fb.feedback)) <;> rfl

/-- The `final_edit` node's state and fan-outs do not depend on the callback
flag. -/
theorem final_edit_flag (wf : CouncilWorkflow) (b : Bool)
    (oracle : Oracle ε) (st : CouncilState) :
    (({ wf with hasCallback := b }).final_edit oracle st).map
      (fun (out : CouncilState × List Event × List Fanout) => (out.1, out.2.2)) =
    (wf.final_edit oracle st).map
      (fun (out : CouncilState × List Event × List Fanout) => (out.1, out.2.2)) := by
  unfold CouncilWorkflow.final_edit
  dsimp only
  cases EditorAgent.edit_final_response wf.editor_agent oracle st.user_query
    st.current_draft st.feedback_history <;> rfl

/-- Without a callback the loop contributes no notification tags. -/
theorem loopTags_false (cr mr : Nat) : loopTags false cr mr = [] := by
  rw [loopTags]
  by_cases h : mr ≤ cr + 1
  · rw [dif_pos h]
    simp
  · rw [dif_neg h]
    rw [loopTags_false (cr + 1) mr]
    simp
termination_by mr - cr
decreasing_by omega

/-- The loop's state and fan-outs do not depend on the callback flag. -/
theorem debateLoopFuel_flag (wf : CouncilWorkflow) (b : Bool) (oracle : Oracle ε) :
    ∀ (fuel : Nat) (st : CouncilState),
      (({ wf with hasCallback := b }).debateLoopFuel oracle fuel st).map
        (fun (out : CouncilState × List Event × List Fanout) => (out.1, out.2.2)) =
      (wf.debateLoopFuel oracle fuel st).map
        (fun (out : CouncilState × List Event × List Fanout) => (out.1, out.2.2)) := by
  intro fuel
  induction fuel with
  | zero =>
    intro st
    conv_lhs => rw [CouncilWorkflow.debateLoopFuel]
    conv_rhs => rw [CouncilWorkflow.debateLoopFuel]
    have hcd := council_debate_flag wf b oracle st
    cases h2 : wf.council_debate oracle st with
    | error e =>
      have h1 : ({ wf with hasCallback := b }).council_debate oracle st =
          Except.error e := exceptMap_eq_error _ _ _ (hcd.trans (by rw [h2]; rfl))
      simp only [h1, h2]
    | ok out =>
      obtain ⟨st1, ev1, bt1⟩ := out
      obtain ⟨out', h1, hpq⟩ :=
        exceptMap_eq_ok _ _ (st1, bt1) (hcd.trans (by rw [h2]; rfl))
      obtain ⟨st1', ev1', bt1'⟩ := out'
      have hst : st1 = st1' := (congrArg Prod.fst hpq).symm
      have hbt : bt1 = bt1' := (congrArg Prod.snd hpq).symm
      subst hst
      subst hbt
      simp only [h1, h2]
      by_cases hc : should_continue_debate st1 = "end"
      · rw [if_pos hc, if_pos hc]
        have hfe := final_edit_flag wf b oracle st1
        cases h4 : wf.final_edit oracle st1 with
        | error e =>
          have h3 : ({ wf with hasCallback := b }).final_edit oracle st1 =
              Except.error e :=
            exceptMap_eq_error _ _ _ (hfe.trans (by rw [h4]; rfl))
          simp only [h3, h4]
        | ok out2 =>
          obtain ⟨st2, ev2, bt2⟩ := out2
          obtain ⟨out2', h3, hpq2⟩ :=
            exceptMap_eq_ok _ _ (st2, bt2) (hfe.trans (by rw [h4]; rfl))
          obtain ⟨st2', ev2', bt2'⟩ := out2'
          have hs2 : st2 = st2' := (congrArg Prod.fst hpq2).symm
          have hb2 : bt2 = bt2' := (congrArg Prod.snd hpq2).symm
          subst hs2
          subst hb2
          simp only [h3, h4]
          rfl
      · rw [if_neg hc, if_neg hc]
        have hud := update_draft_flag wf b oracle st1
        cases h4 : wf.update_draft oracle st1 with
        | error e =>
          have h3 : ({ wf with hasCallback := b }).update_draft oracle st1 =
              Except.error e :=
            exceptMap_eq_error _ _ _ (hud.trans (by rw [h4]; rfl))
          simp only [h3, h4]
        | ok out2 =>
          obtain ⟨st2, ev2, bt2⟩ := out2
          obtain ⟨out2', h3, hpq2⟩ :=
            exceptMap_eq_ok _ _ (st2, bt2) (hud.trans (by rw [h4]; rfl))
          obtain ⟨st2', ev2', bt2'⟩ := out2'
          have hs2 : st2 = st2' := (congrArg Prod.fst hpq2).symm
          have hb2 : bt2 = bt2' := (congrArg Prod.snd hpq2).symm
          subst hs2
          subst hb2
          simp only [h3, h4]
          rfl
  | succ fuel ih =>
    intro st
    conv_lhs => rw [CouncilWorkflow.debateLoopFuel]
    conv_rhs => rw [CouncilWorkflow.debateLoopFuel]
    have hcd := council_debate_flag wf b oracle st
    cases h2 : wf.council_debate oracle st with
    | error e =>
      have h1 : ({ wf with hasCallback := b }).council_debate oracle st =
          Except.error e := exceptMap_eq_error _ _ _ (hcd.trans (by rw [h2]; rfl))
      simp only [h1, h2]
    | ok out =>
      obtain ⟨st1, ev1, bt1⟩ := out
      obtain ⟨out', h1, hpq⟩ :=
        exceptMap_eq_ok _ _ (st1, bt1) (hcd.trans (by rw [h2]; rfl))
      obtain ⟨st1', ev1', bt1'⟩ := out'
      have hst : st1 = st1' := (congrArg Prod.fst hpq).symm
      have hbt : bt1 = bt1' := (congrArg Prod.snd hpq).symm
      subst hst
      subst hbt
      simp only [h1, h2]
      by_cases hc : should_continue_debate st1 = "end"
      · rw [if_pos hc, if_pos hc]
        have hfe := final_edit_flag wf b oracle st1
        cases h4 : wf.final_edit oracle st1 with
        | error e =>
          have h3 : ({ wf with hasCallback := b }).final_edit oracle st1 =
              Except.error e :=
            exceptMap_eq_error _ _ _ (hfe.trans (by rw [h4]; rfl))
          simp only [h3, h4]
        | ok out2 =>
          obtain ⟨st2, ev2, bt2⟩ := out2
          obtain ⟨out2', h3, hpq2⟩ :=
            exceptMap_eq_ok _ _ (st2, bt2) (hfe.trans (by rw [h4]; rfl))
          obtain ⟨st2', ev2', bt2'⟩ := out2'
          have hs2 : st2 = st2' := (congrArg Prod.fst hpq2).symm
          have hb2 : bt2 = bt2' := (congrArg Prod.snd hpq2).symm
          subst hs2
          subst hb2
          simp only [h3, h4]
          rfl
      · rw [if_neg hc, if_neg hc]
        have hud := update_draft_flag wf b oracle st1
        cases h4 : wf.update_draft oracle st1 with
        | error e =>
          have h3 : ({ wf with hasCallback := b }).update_draft oracle st1 =
              Except.error e :=
            exceptMap_eq_error _ _ _ (hud.trans (by rw [h4]; rfl))
          simp only [h3, h4]
        | ok out2 =>
          obtain ⟨st2, ev2, bt2⟩ := out2
          obtain ⟨out2', h3, hpq2⟩ :=
            exceptMap_eq_ok _ _ (st2, bt2) (hud.trans (by rw [h4]; rfl))
          obtain ⟨st2', ev2', bt2'⟩ := out2'
          have hs2 : st2 = st2' := (congrArg Prod.fst hpq2).symm
          have hb2 : bt2 = bt2' := (congrArg Prod.snd hpq2).symm
          subst hs2
          subst hb2
          simp only [h3, h4]
          have hih := ih st2
          cases h6 : wf.debateLoopFuel oracle fuel st2 with
          | error e =>
            have h5 : ({ wf with hasCallback := b }).debateLoopFuel oracle fuel st2 =
                Except.error e :=
              exceptMap_eq_error _ _ _ (hih.trans (by rw [h6]; rfl))
            simp only [h5, h6]
          | ok out3 =>
            obtain ⟨st3, ev3, bt3⟩ := out3
            obtain ⟨out3', h5, hpq3⟩ :=
              exceptMap_eq_ok _ _ (st3, bt3) (hih.trans (by rw [h6]; rfl))
            obtain ⟨st3', ev3', bt3'⟩ := out3'
            have hs3 : st3 = st3' := (congrArg Prod.fst hpq3).symm
            have hb3 : bt3 = bt3' := (congrArg Prod.snd hpq3).symm
            subst hs3
            subst hb3
            simp only [h5, h6]
            rfl

/-- A whole run's state and fan-outs do not depend on the callback flag. -/
theorem runState_flag (wf : CouncilWorkflow) (b : Bool) (oracle : Oracle ε)
    (q : String) :
    (({ wf with hasCallback := b }).runState oracle q).map
      (fun (out : CouncilState × List Event × List Fanout) => (out.1, out.2.2)) =
    (wf.runState oracle q).map
      (fun (out : CouncilState × List Event × List Fanout) => (out.1, out.2.2)) := by
  unfold CouncilWorkflow.runState
  rw [initialState_flag wf b q]
  have hcr := create_initial_draft_flag wf b oracle (wf.initialState q)
  cases h2 : wf.create_initial_draft oracle (wf.initialState q) with
  | error e =>
    have h1 : ({ wf with hasCallback := b }).create_initial_draft oracle
        (wf.initialState q) = Except.error e :=
      exceptMap_eq_error _ _ _ (hcr.trans (by rw [h2]; rfl))
    simp only [h1, h2]
  | ok out =>
    obtain ⟨st1, ev1, bt1⟩ := out
    obtain ⟨out', h1, hpq⟩ :=
      exceptMap_eq_ok _ _ (st1, bt1) (hcr.trans (by rw [h2]; rfl))
    obtain ⟨st1', ev1', bt1'⟩ := out'
    have hst : st1 = st1' := (congrArg Prod.fst hpq).symm
    have hbt : bt1 = bt1' := (congrArg Prod.snd hpq).symm
    subst hst
    subst hbt
    simp only [h1, h2]
    have hl : (({ wf with hasCallback := b }).debateLoop oracle st1).map
        (fun (out : CouncilState × List Event × List Fanout) => (out.1, out.2.2)) =
        (wf.debateLoop oracle st1).map
        (fun (out : CouncilState × List Event × List Fanout) => (out.1, out.2.2)) := by
      rw [debateLoop_eq_fuel_max, debateLoop_eq_fuel_max]
      exact debateLoopFuel_flag wf b oracle st1.max_rounds st1
    cases h6 : wf.debateLoop oracle st1 with
    | error e =>
      have h5 : ({ wf with hasCallback := b }).debateLoop oracle st1 =
          Except.error e := exceptMap_eq_error _ _ _ (hl.trans (by rw [h6]; rfl))
      simp only [h5, h6]
    | ok out2 =>
      obtain ⟨st2, ev2, bt2⟩ := out2
      obtain ⟨out2', h5, hpq2⟩ :=
        exceptMap_eq_ok _ _ (st2, bt2) (hl.trans (by rw [h6]; rfl))
      obtain ⟨st2', ev2', bt2'⟩ := out2'
      have hs2 : st2 = st2' := (congrArg Prod.fst hpq2).symm
      have hb2 : bt2 = bt2' := (congrArg Prod.snd hpq2).symm
      subst hs2
      subst hb2
      simp only [h5, h6]
      rfl

/-- C8: for every query, configuration (`debate_rounds >= 1` as the
configuration validator guarantees) and oracle, running the engine without a
callback produces the same final state and the same fan-out sequence as
running it with one, the same `run` return value, and emits no notification at
all: absence of the callback never changes control flow or outcomes. -/
theorem claim_C8_callback_transparent (wf : CouncilWorkflow) (oracle : Oracle ε)
    (q : String) (hR : 1 ≤ wf.debate_rounds) :
    ((({ wf with hasCallback := false }).runState oracle q).map
      (fun (out : CouncilState × List Event × List Fanout) => (out.1, out.2.2)) =
     (({ wf with hasCallback := true }).runState oracle q).map
      (fun (out : CouncilState × List Event × List Fanout) => (out.1, out.2.2))) ∧
    ({ wf with hasCallback := false }).run oracle q =
      ({ wf with hasCallback := true }).run oracle q ∧
    (∀ (st' : CouncilState) (ev : List Event) (bt : List Fanout),
      ({ wf with hasCallback := false }).runState oracle q =
        Except.ok (st', ev, bt) → ev = []) := by
  have hmain := (runState_flag wf false oracle q).trans
    (runState_flag wf true oracle q).symm
  refine ⟨hmain, ?_, ?_⟩
  · rw [run_eq_map, run_eq_map]
    have hcg := congrArg
      (Except.map (fun (p : CouncilState × List Fanout) => p.1.final_response))
      hmain
    rw [exceptMap_comp, exceptMap_comp] at hcg
    exact hcg
  · intro st' ev bt h
    obtain ⟨-, -, -, -, ht⟩ :=
      runState_ok_bk { wf with hasCallback := false } oracle q st' ev bt hR h
    simp only [show ({ wf with hasCallback := false }).hasCallback = false
      from rfl] at ht
    rw [loopTags_false] at ht
    simp at ht
    exact ht

/-- Witness for C8: at a concrete configuration and oracle, the run with and
without callback return the same final response. -/
theorem claim_C8_witness :
    1 ≤ wNone.debate_rounds ∧
    ({ wNone with hasCallback := false }).run okOracle "q" =
      ({ wNone with hasCallback := true }).run okOracle "q" :=
  ⟨by decide,
    (claim_C8_callback_transparent wNone okOracle "q" (by decide)).2.1⟩

/-! String-splitting theory (claim C3). -/

/-- Python `strip` is idempotent, i.e. stripped strings have no leading or
trailing whitespace. -/
theorem pyStrip_idem (s : String) : pyStrip (pyStrip s) = pyStrip s := by
  have key : ∀ l : List Char,
      List.rdropWhile isPySpace
        ((List.rdropWhile isPySpace (l.dropWhile isPySpace)).dropWhile isPySpace) =
      List.rdropWhile isPySpace (l.dropWhile isPySpace) := by
    intro l
    have hdu : (l.dropWhile isPySpace).dropWhile isPySpace =
        l.dropWhile isPySpace := List.dropWhile_idempotent _ _
    have hv : (List.rdropWhile isPySpace (l.dropWhile isPySpace)).dropWhile
        isPySpace = List.rdropWhile isPySpace (l.dropWhile isPySpace) := by
      rcases hvv : List.rdropWhile isPySpace (l.dropWhile isPySpace) with _ | ⟨a, v⟩
      · rfl
      · have hpre : (a :: v) <+: l.dropWhile isPySpace :=
          hvv ▸ List.rdropWhile_prefix _ _
        obtain ⟨t, ht⟩ := hpre
        have hu_eq : l.dropWhile isPySpace = a :: (v ++ t) := by
          rw [← ht]
          rfl
        have hna : ¬ isPySpace a = true := by
          have hall := List.dropWhile_eq_self_iff.mp hdu
          have h2 := hall (by rw [hu_eq]; simp)
          simpa [hu_eq] using h2
        rw [List.dropWhile_cons_of_neg hna]
    calc List.rdropWhile isPySpace
          ((List.rdropWhile isPySpace (l.dropWhile isPySpace)).dropWhile isPySpace)
        = List.rdropWhile isPySpace
            (List.rdropWhile isPySpace (l.dropWhile isPySpace)) := by rw [hv]
      _ = List.rdropWhile isPySpace (l.dropWhile isPySpace) :=
          List.rdropWhile_idempotent _ _
  exact congrArg String.mk (key s.data)

/-- If `lastSplit` finds no occurrence, the separator is not an infix. -/
theorem lastSplit_none (sep : List Char) (hsep : sep ≠ []) :
    ∀ l : List Char, lastSplit sep l = none → ¬ (sep <:+: l) := by
  intro l
  induction l with
  | nil =>
    intro _ hinf
    exact hsep (List.infix_nil.mp hinf)
  | cons c rest ih =>
    intro h hinf
    unfold lastSplit at h
    rcases hr : lastSplit sep rest with - | p
    · rw [hr] at h
      rcases List.infix_cons_iff.mp hinf with hpre | hinf'
      · rw [if_pos ((List.isPrefixOf_iff_prefix).mpr hpre)] at h
        exact Option.noConfusion h
      · exact ih hr hinf'
    · rw [hr] at h
      obtain ⟨a, b⟩ := p
      exact Option.noConfusion h

/-- Soundness of `lastSplit`: it decomposes the list at an occurrence of the
separator after which the separator never occurs again (the LAST one). -/
theorem lastSplit_some (sep : List Char) (hsep : sep ≠ []) :
    ∀ (l a b : List Char), lastSplit sep l = some (a, b) →
      l = a ++ sep ++ b ∧ ¬ (sep <:+: b) := by
  intro l
  induction l with
  | nil =>
    intro a b h
    unfold lastSplit at h
    rw [if_neg (by simpa using hsep)] at h
    exact Option.noConfusion h
  | cons c rest ih =>
    intro a b h
    unfold lastSplit at h
    rcases hr : lastSplit sep rest with - | ⟨a', b'⟩
    · rw [hr] at h
      by_cases hp : sep.isPrefixOf (c :: rest)
      · rw [if_pos hp] at h
        obtain ⟨hA, hB⟩ := Prod.mk.injEq .. ▸ Option.some.inj h
        obtain ⟨t, ht⟩ := (List.isPrefixOf_iff_prefix).mp hp
        have hb : b = t := by
          rw [← hB, ← ht, List.drop_left]
        constructor
        · rw [← hA, hb, ← ht]
          rfl
        · intro hinf
          rcases sep with - | ⟨s0, sep'⟩
          · exact hsep rfl
          · have htail0 : sep' ++ t = rest := by
              simpa using congrArg List.tail ht
            have hsuf : t <:+ rest := htail0.symm ▸ List.suffix_append sep' t
            exact lastSplit_none _ hsep rest hr ((hb ▸ hinf).trans hsuf.isInfix)
      · rw [if_neg hp] at h
        exact Option.noConfusion h
    · rw [hr] at h
      obtain ⟨hA, hB⟩ := Prod.mk.injEq .. ▸ Option.some.inj h
      obtain ⟨hrest, hninf⟩ := ih a' b' hr
      constructor
      · rw [← hA, ← hB, hrest]
        rfl
      · rw [← hB]
        exact hninf

/-- Containment of the separator guarantees `lastSplit` finds a split. -/
theorem lastSplit_isSome_of_infix (sep : List Char) (hsep : sep ≠ [])
    (l : List Char) (hinf : sep <:+: l) : (lastSplit sep l).isSome := by
  cases h : lastSplit sep l with
  | none => exact absurd hinf (lastSplit_none sep hsep l h)
  | some p => rfl

/-- C3 (amended): for every raw reply containing the literal marker
`"Summary:"`, `split_summary` splits at the LAST occurrence of the marker —
the text decomposes as `a ++ marker ++ b` with no further occurrence in `b`,
the content is `a` stripped, and the summary is `b` stripped; both components
carry no leading or trailing whitespace, but the summary may be EMPTY (that
is the amendment: the claimed "non-empty summary" fails, see the
counterexample).  For a reply without the marker, the summary is `""` and the
content is the trimmed full reply. -/
theorem claim_C3_split_summary (text : String) :
    ((markerChars <:+: text.data) →
      ∃ a b : List Char, text.data = a ++ markerChars ++ b ∧
        ¬ (markerChars <:+: b) ∧
        split_summary text = (pyStrip (String.mk a), pyStrip (String.mk b)) ∧
        isStripped (split_summary text).1 ∧ isStripped (split_summary text).2) ∧
    (¬ (markerChars <:+: text.data) →
      (split_summary text).2 = "" ∧ (split_summary text).1 = pyStrip text) := by
  have hsep : markerChars ≠ [] := by decide
  constructor
  · intro hinf
    have hs := lastSplit_isSome_of_infix markerChars hsep text.data hinf
    cases h : lastSplit markerChars text.data with
    | none => rw [h] at hs; exact absurd hs (by simp)
    | some p =>
      obtain ⟨a, b⟩ := p
      obtain ⟨hdec, hninf⟩ := lastSplit_some markerChars hsep text.data a b h
      have hsp : split_summary text = (pyStrip (String.mk a), pyStrip (String.mk b)) := by
        unfold split_summary
        rw [h]
      refine ⟨a, b, hdec, hninf, hsp, ?_, ?_⟩
      · rw [hsp]
        exact pyStrip_idem _
      · rw [hsp]
        exact pyStrip_idem _
  · intro hninf
    cases h : lastSplit markerChars text.data with
    | some p =>
      obtain ⟨a, b⟩ := p
      obtain ⟨hdec, -⟩ := lastSplit_some markerChars hsep text.data a b h
      exact absurd ⟨a, b, hdec.symm⟩ hninf
    | none =>
      unfold split_summary
      rw [h]
      exact ⟨rfl, rfl⟩

/-- Counterexample to C3 as stated: the reply `"Summary:"` contains the
marker, yet the summary component is EMPTY, refuting the claimed "non-empty
summary" for marker-bearing replies. -/
theorem claim_C3_counterexample :
    (markerChars <:+: ("Summary:" : String).data) ∧
    (split_summary "Summary:").2 = "" ∧
    (split_summary "Summary:").1 = "" := by
  refine ⟨⟨[], [], by decide⟩, by decide, by decide⟩

/-- Witness for the amended C3 at a concrete marker-bearing reply. -/
theorem claim_C3_witness :
    (markerChars <:+: ("x Summary: y" : String).data) ∧
    (∃ a b : List Char, ("x Summary: y" : String).data = a ++ markerChars ++ b ∧
      ¬ (markerChars <:+: b) ∧
      split_summary "x Summary: y" = (pyStrip (String.mk a), pyStrip (String.mk b)) ∧
      isStripped (split_summary "x Summary: y").1 ∧
      isStripped (split_summary "x Summary: y").2) := by
  have hm : markerChars <:+: ("x Summary: y" : String).data := by decide
  exact ⟨hm, (claim_C3_split_summary "x Summary: y").1 hm⟩

/-- C2: for every critique round the list appended to `feedback_history` (the
same list the `feedback_round` event and the revision step receive) holds one
`{agent_id, feedback}` entry per configured council member — entry `i` comes
from member `i`'s own invocation and carries member `i`'s agent id — in
configured order; and the gather join that produces the underlying responses
is independent of the completion order (any permutation of the task indices
fills the slots to the same task-ordered list). -/
theorem claim_C2_feedback_order (wf : CouncilWorkflow) (oracle : Oracle ε)
    (st st' : CouncilState)
    (h : (wf.council_debate oracle st).map
      (fun (out : CouncilState × List Event × List Fanout) => out.1) =
      Except.ok st') :
    ∃ responses : List AgentResponse,
      gatherExcept (wf.council_members.map (fun member =>
        CouncilMember.provide_feedback member oracle st.user_query
          st.current_draft (st.current_round + 1))) = Except.ok responses ∧
      st'.feedback_history = st.feedback_history ++
        [responses.map (fun r => FeedbackEntry.mk r.agent_id r.content)] ∧
      responses.length = wf.council_members.length ∧
      (∀ (i : Nat) (hi : i < wf.council_members.length) (hi' : i < responses.length),
        CouncilMember.provide_feedback (wf.council_members.get ⟨i, hi⟩) oracle
          st.user_query st.current_draft (st.current_round + 1) =
          Except.ok (responses.get ⟨i, hi'⟩) ∧
        (responses.get ⟨i, hi'⟩).agent_id =
          (wf.council_members.get ⟨i, hi⟩).agent_id) ∧
      (∀ sched : List Nat, sched.Perm (List.range responses.length) →
        gatherJoin responses sched = responses.map (fun r => some r)) := by
  obtain ⟨out, hc, hproj⟩ := exceptMap_eq_ok _ _ st' h
  obtain ⟨responses, hg, hout⟩ := wf.council_debate_ok oracle st out hc
  refine ⟨responses, hg, ?_, ?_, ?_, ?_⟩
  · rw [← hproj, hout]
  · exact (gatherExcept_ok_length _ _ hg).trans (by rw [List.length_map])
  · intro i hi hi'
    have hgot := gatherExcept_ok_get _ _ hg i (by rw [List.length_map]; exact hi) hi'
    rw [List.get_eq_getElem, List.getElem_map] at hgot
    have hpf : CouncilMember.provide_feedback (wf.council_members.get ⟨i, hi⟩)
        oracle st.user_query st.current_draft (st.current_round + 1) =
        Except.ok (responses.get ⟨i, hi'⟩) := by
      rw [List.get_eq_getElem]
      exact hgot
    refine ⟨hpf, ?_⟩
    obtain ⟨reply, -, hr⟩ :=
      CouncilMember.provide_feedback_ok _ oracle _ _ _ _ hpf
    rw [hr]
    rfl
  · intro sched hperm
    exact gatherJoin_eq responses sched hperm

/-- Witness for C2: two configured reviewers with distinguishable replies;
the appended round lists member 0's entry before member 1's. -/
theorem claim_C2_witness :
    ((wTwo.council_debate okOracle stC2).map
      (fun (out : CouncilState × List Event × List Fanout) => out.1) =
      Except.ok
        { user_query := "q", current_draft := "d", drafts := ["d"],
          feedback_history := [[FeedbackEntry.mk "council_member_0" "r0",
            FeedbackEntry.mk "council_member_1" "r1"]],
          current_round := 1, max_rounds := 2, final_response := "" }) ∧
    ({ user_query := "q", current_draft := "d", drafts := ["d"],
       feedback_history := [[FeedbackEntry.mk "council_member_0" "r0",
         FeedbackEntry.mk "council_member_1" "r1"]],
       current_round := 1, max_rounds := 2,
       final_response := "" } : CouncilState).feedback_history =
      stC2.feedback_history ++ [[FeedbackEntry.mk "council_member_0" "r0",
        FeedbackEntry.mk "council_member_1" "r1"]] := by
  have h : (wTwo.council_debate okOracle stC2).map
      (fun (out : CouncilState × List Event × List Fanout) => out.1) =
      Except.ok
        { user_query := "q", current_draft := "d", drafts := ["d"],
          feedback_history := [[FeedbackEntry.mk "council_member_0" "r0",
            FeedbackEntry.mk "council_member_1" "r1"]],
          current_round := 1, max_rounds := 2, final_response := "" } := by
    decide
  obtain ⟨responses, hg, hfh, -, -, -⟩ :=
    claim_C2_feedback_order wTwo okOracle stC2 _ h
  have hg2 : gatherExcept (wTwo.council_members.map (fun member =>
      CouncilMember.provide_feedback member okOracle stC2.user_query
        stC2.current_draft (stC2.current_round + 1))) =
      Except.ok
        [AgentResponse.mk "r0" "council_member_0" "CouncilMember"
          [("round", MetaValue.nat 1)],
         AgentResponse.mk "r1" "council_member_1" "CouncilMember"
          [("round", MetaValue.nat 1)]] := by
    decide
  have hresp := Except.ok.inj (hg.symm.trans hg2)
  subst hresp
  exact ⟨h, by rw [hfh]; rfl⟩

/-- Counterexample to C4 as stated: with two rounds configured and no
reviewer, the state reached right after the first completed critique round —
a point of the run after the initial draft is created and before the terminal
edit — has `len(drafts) = 1` and `len(feedback_history) = 1`, violating the
claimed invariant `len(drafts) == 1 + len(feedback_history)`. -/
theorem claim_C4_counterexample :
    (wNone.create_initial_draft okOracle (wNone.initialState "q") =
      Except.ok (stAfterDraft,
        [Event.status "Creating initial draft...",
         Event.draft_created (AgentResponse.mk "m" "draft_agent" "DraftAgent" [])],
        [])) ∧
    (wNone.council_debate okOracle stAfterDraft =
      Except.ok (stAfterRound1,
        [Event.status "Council debate round 1...", Event.feedback_round 1 []],
        [[]])) ∧
    stAfterRound1.drafts.length = 1 ∧
    stAfterRound1.feedback_history.length = 1 ∧
    ¬ (stAfterRound1.drafts.length = 1 + stAfterRound1.feedback_history.length) := by
  decide

/-- C4 (amended): the relation between draft and feedback counts alternates
rather than staying at `drafts = 1 + feedback`: right after the initial draft
`len(drafts) = 1 + len(feedback_history)`; a completed critique round leaves
`len(drafts) = len(feedback_history)`; a draft update restores
`len(drafts) = 1 + len(feedback_history)`.  The claimed invariant therefore
holds exactly after the initial draft and after each revision, and fails
between a critique round and the following stage. -/
theorem claim_C4_alternating_invariant (wf : CouncilWorkflow) (oracle : Oracle ε) :
    (∀ (q : String) (st1 : CouncilState) (ev : List Event) (bt : List Fanout),
      wf.create_initial_draft oracle (wf.initialState q) = Except.ok (st1, ev, bt) →
      st1.drafts.length = 1 + st1.feedback_history.length) ∧
    (∀ (st st' : CouncilState) (ev : List Event) (bt : List Fanout),
      st.drafts.length = 1 + st.feedback_history.length →
      wf.council_debate oracle st = Except.ok (st', ev, bt) →
      st'.drafts.length = st'.feedback_history.length) ∧
    (∀ (st st' : CouncilState) (ev : List Event) (bt : List Fanout),
      st.drafts.length = st.feedback_history.length →
      wf.update_draft oracle st = Except.ok (st', ev, bt) →
      st'.drafts.length = 1 + st'.feedback_history.length) := by
  refine ⟨?_, ?_, ?_⟩
  · intro q st1 ev bt h
    obtain ⟨hd, hf, -, -, -, -, -⟩ :=
      create_initial_draft_bk wf oracle _ st1 ev bt h
    have h0 : (wf.initialState q).drafts.length = 0 := rfl
    have h1 : st1.feedback_history.length = 0 := by rw [hf]; rfl
    omega
  · intro st st' ev bt hinv h
    obtain ⟨hd, hf, -, -, -, -, -⟩ := council_debate_bk wf oracle st st' ev bt h
    have h1 : st'.drafts.length = st.drafts.length := by rw [hd]
    omega
  · intro st st' ev bt hinv h
    obtain ⟨hd, hf, -, -, -, -, -⟩ := update_draft_bk wf oracle st st' ev bt h
    have h1 : st'.feedback_history.length = st.feedback_history.length := by rw [hf]
    omega

/-- Witness for the amended C4 at the concrete initial-draft stage. -/
theorem claim_C4_witness :
    (wNone.create_initial_draft okOracle (wNone.initialState "q") =
      Except.ok (stAfterDraft,
        [Event.status "Creating initial draft...",
         Event.draft_created (AgentResponse.mk "m" "draft_agent" "DraftAgent" [])],
        [])) ∧
    stAfterDraft.drafts.length = 1 + stAfterDraft.feedback_history.length := by
  have h : wNone.create_initial_draft okOracle (wNone.initialState "q") =
      Except.ok (stAfterDraft,
        [Event.status "Creating initial draft...",
         Event.draft_created (AgentResponse.mk "m" "draft_agent" "DraftAgent" [])],
        []) := by
    decide
  exact ⟨h, (claim_C4_alternating_invariant wNone okOracle).1 "q" _ _ _ h⟩

/-! Metadata mutation (claim C9). -/

/-- Inserting an absent key into a dict appends the binding. -/
theorem dictInsert_append (m : List (String × MetaValue)) (k : String)
    (v : MetaValue) (h : m.any (fun p => p.1 == k) = false) :
    dictInsert m k v = m ++ [(k, v)] := by
  unfold dictInsert
  simp [h]

/-- The wrapper's freshly constructed metadata never carries a key other
than `"summary"` and `"token_usage"`. -/
theorem generate_response_no_flag (agent_id agent_type : String)
    (reply : LLMReply) (flag : String)
    (h1 : (("summary" : String) == flag) = false)
    (h2 : (("token_usage" : String) == flag) = false) :
    ((generate_response agent_id agent_type reply).metadata.any
      (fun p => p.1 == flag)) = false := by
  unfold generate_response
  dsimp only
  cases reply.usage_metadata with
  | none =>
    by_cases hs : (split_summary reply.content).2 ≠ "" <;> simp [hs, h1]
  | some u =>
    by_cases hs : (split_summary reply.content).2 ≠ "" <;>
      simp [hs, dictInsert, h1, h2]

/-- Counterexample to C9 as stated: after `generate_response` constructs the
result, `DraftAgent.update_draft` modifies its `metadata` field (adding the
`"revision"` flag) before the result is handed back to the engine — so the
result is not immutable between construction and folding into the state. -/
theorem claim_C9_counterexample :
    DraftAgent.update_draft (LLM.mk "m" (7 / 10)) okOracle "d" [] =
      Except.ok (AgentResponse.mk "m" "draft_agent" "DraftAgent"
        [("revision", MetaValue.bool true)]) ∧
    (generate_response "draft_agent" "DraftAgent" (LLMReply.mk "m" none)).metadata
      = [] ∧
    ¬ ([(("revision" : String), MetaValue.bool true)] =
      ([] : List (String × MetaValue))) := by
  decide

/-- C9 (amended): each role operation leaves `content`, `agent_id` and
`agent_type` exactly as constructed by the wrapper, and modifies only
`metadata`, by appending a single role flag — `"revision"` on a revision,
`"round"` on a critique, `"final"` on the final edit — after construction
(additive only). -/
theorem claim_C9_metadata_flag_only (oracle : Oracle ε) (llm ellm : LLM)
    (member : CouncilMemberData) (q cd fd : String) (fb : List String)
    (rn : Nat) (dh : List (List FeedbackEntry)) (r1 r2 r3 : AgentResponse)
    (reply1 reply2 reply3 : LLMReply)
    (ho1 : oracle llm (DraftAgent.updateMessages cd fb) = Except.ok reply1)
    (h1 : DraftAgent.update_draft llm oracle cd fb = Except.ok r1)
    (ho2 : oracle member.llm (CouncilMember.feedbackMessages member.perspective
      q cd rn) = Except.ok reply2)
    (h2 : CouncilMember.provide_feedback member oracle q cd rn = Except.ok r2)
    (ho3 : oracle ellm (EditorAgent.editMessages q fd) = Except.ok reply3)
    (h3 : EditorAgent.edit_final_response ellm oracle q fd dh = Except.ok r3) :
    (r1.content = (generate_response "draft_agent" "DraftAgent" reply1).content ∧
     r1.agent_id = (generate_response "draft_agent" "DraftAgent" reply1).agent_id ∧
     r1.agent_type = (generate_response "draft_agent" "DraftAgent" reply1).agent_type ∧
     r1.metadata = (generate_response "draft_agent" "DraftAgent" reply1).metadata ++
       [("revision", MetaValue.bool true)]) ∧
    (r2.content = (generate_response member.agent_id "CouncilMember" reply2).content ∧
     r2.agent_id = (generate_response member.agent_id "CouncilMember" reply2).agent_id ∧
     r2.agent_type = (generate_response member.agent_id "CouncilMember" reply2).agent_type ∧
     r2.metadata = (generate_response member.agent_id "CouncilMember" reply2).metadata ++
       [("round", MetaValue.nat rn)]) ∧
    (r3.content = (generate_response "editor_agent" "EditorAgent" reply3).content ∧
     r3.agent_id = (generate_response "editor_agent" "EditorAgent" reply3).agent_id ∧
     r3.agent_type = (generate_response "editor_agent" "EditorAgent" reply3).agent_type ∧
     r3.metadata = (generate_response "editor_agent" "EditorAgent" reply3).metadata ++
       [("final", MetaValue.bool true)]) := by
  refine ⟨?_, ?_, ?_⟩
  · obtain ⟨reply', hre, hr⟩ := DraftAgent.update_draft_ok llm oracle cd fb r1 h1
    have hrr : reply' = reply1 := Except.ok.inj (hre.symm.trans ho1)
    subst hrr
    refine ⟨by rw [hr], by rw [hr], by rw [hr], ?_⟩
    rw [hr]
    exact dictInsert_append _ _ _
      (generate_response_no_flag _ _ _ _ (by decide) (by decide))
  · obtain ⟨reply', hre, hr⟩ :=
      CouncilMember.provide_feedback_ok member oracle q cd rn r2 h2
    have hrr : reply' = reply2 := Except.ok.inj (hre.symm.trans ho2)
    subst hrr
    refine ⟨by rw [hr], by rw [hr], by rw [hr], ?_⟩
    rw [hr]
    exact dictInsert_append _ _ _
      (generate_response_no_flag _ _ _ _ (by decide) (by decide))
  · obtain ⟨reply', hre, hr⟩ :=
      EditorAgent.edit_final_response_ok ellm oracle q fd dh r3 h3
    have hrr : reply' = reply3 := Except.ok.inj (hre.symm.trans ho3)
    subst hrr
    refine ⟨by rw [hr], by rw [hr], by rw [hr], ?_⟩
    rw [hr]
    exact dictInsert_append _ _ _
      (generate_response_no_flag _ _ _ _ (by decide) (by decide))

/-- Witness for the amended C9 at concrete role invocations. -/
theorem claim_C9_witness :
    (DraftAgent.update_draft (LLM.mk "m" (7 / 10)) okOracle "d" [] =
      Except.ok (AgentResponse.mk "m" "draft_agent" "DraftAgent"
        [("revision", MetaValue.bool true)])) ∧
    (AgentResponse.mk "m" "draft_agent" "DraftAgent"
        [("revision", MetaValue.bool true)]).metadata =
      (generate_response "draft_agent" "DraftAgent" (LLMReply.mk "m" none)).metadata
        ++ [("revision", MetaValue.bool true)] := by
  have h1 : DraftAgent.update_draft (LLM.mk "m" (7 / 10)) okOracle "d" [] =
      Except.ok (AgentResponse.mk "m" "draft_agent" "DraftAgent"
        [("revision", MetaValue.bool true)]) := by decide
  have happ := claim_C9_metadata_flag_only okOracle (LLM.mk "m" (7 / 10))
    (LLM.mk "e" (3 / 10))
    (CouncilMemberData.mk "council_member_0" 0 (LLM.mk "r0" (7 / 10))
      "Council Member 1")
    "q" "d" "f" [] 1 []
    (AgentResponse.mk "m" "draft_agent" "DraftAgent"
      [("revision", MetaValue.bool true)])
    (AgentResponse.mk "r0" "council_member_0" "CouncilMember"
      [("round", MetaValue.nat 1)])
    (AgentResponse.mk "e" "editor_agent" "EditorAgent"
      [("final", MetaValue.bool true)])
    (LLMReply.mk "m" none) (LLMReply.mk "r0" none) (LLMReply.mk "e" none)
    (by decide) h1 (by decide) (by decide) (by decide) (by decide)
  exact ⟨h1, happ.1.2.2.2⟩

/-- C10: the final edit's model prompt is built only from the user query and
the final draft — `edit_final_response` returns the same result for any two
feedback histories, so the `FINAL_EDIT` stage produces the same editor
invocation, the same `final_response` value and the same notifications on any
two states that agree on `user_query` and `current_draft` but differ in
`feedback_history`. -/
theorem claim_C10_editor_ignores_history (wf : CouncilWorkflow)
    (oracle : Oracle ε) (st : CouncilState)
    (fh1 fh2 : List (List FeedbackEntry)) :
    EditorAgent.edit_final_response wf.editor_agent oracle st.user_query
        st.current_draft fh1 =
      EditorAgent.edit_final_response wf.editor_agent oracle st.user_query
        st.current_draft fh2 ∧
    (wf.final_edit oracle { st with feedback_history := fh1 }).map
      (fun (out : CouncilState × List Event × List Fanout) =>
        (out.1.final_response, out.2.1, out.2.2)) =
    (wf.final_edit oracle { st with feedback_history := fh2 }).map
      (fun (out : CouncilState × List Event × List Fanout) =>
        (out.1.final_response, out.2.1, out.2.2)) := by
  refine ⟨rfl, ?_⟩
  unfold CouncilWorkflow.final_edit
  dsimp only
  rw [show EditorAgent.edit_final_response wf.editor_agent oracle st.user_query
      st.current_draft fh1 =
    EditorAgent.edit_final_response wf.editor_agent oracle st.user_query
      st.current_draft fh2 from rfl]
  cases EditorAgent.edit_final_response wf.editor_agent oracle st.user_query
    st.current_draft fh2 <;> rfl
